import Mathlib

/-!
Verification development for the `classical_fixes` repository (a Python
metadata-normalization plugin).  The Python source is shallowly embedded:
pure string functions become Lean functions on `String`/`List Char`;
the tag store of the host application (a key-value mapping with membership
test, get-with-empty-default and set) becomes an association list; the
library routines the source relies on (`difflib.SequenceMatcher.ratio`,
`re.sub`/`re.match`/`re.search` on the concrete patterns appearing in the
source, `unicodedata.normalize('NFD', _)`, `str.strip`/`split`/`lower`,
`int(_)`) are modelled faithfully for the inputs exercised here, with the
modelling assumptions recorded in the doc comment of each definition.
-/

set_option maxRecDepth 10000

namespace ClassicalFixes

/-! ## Python string primitives -/

/-- Characters treated as whitespace by Python `str.strip()` / `str.split()`
(space, tab, newline, carriage return, vertical tab, form feed). -/
def pyIsSpace (c : Char) : Bool :=
  c == ' ' || c == Char.ofNat 9 || c == Char.ofNat 10 || c == Char.ofNat 13 ||
  c == Char.ofNat 11 || c == Char.ofNat 12

/-- Python `str.strip()` with no argument: drop leading and trailing whitespace. -/
def pyStrip (s : String) : String :=
  String.mk (((s.data.dropWhile pyIsSpace).reverse.dropWhile pyIsSpace).reverse)

/-- Python `str.strip(cs)`: drop leading and trailing characters drawn from `cs`. -/
def pyStripSet (cs : String) (s : String) : String :=
  String.mk (((s.data.dropWhile (cs.data.contains ·)).reverse.dropWhile
    (cs.data.contains ·)).reverse)

/-- Python `str.lower()`, restricted to ASCII case mapping (every string this
development evaluates it on is ASCII at the point of lowering). -/
def pyLower (s : String) : String :=
  String.mk (s.data.map Char.toLower)

/-- Helper for Python whitespace `str.split()` (no separator): accumulate
maximal runs of non-whitespace characters, dropping empty fields. -/
def wordsGo : List Char → List Char → List String
  | [], acc => if acc.isEmpty then [] else [String.mk acc.reverse]
  | c :: rest, acc =>
      if pyIsSpace c then
        if acc.isEmpty then wordsGo rest [] else String.mk acc.reverse :: wordsGo rest []
      else wordsGo rest (c :: acc)

/-- Python `str.split()` with no argument: split on whitespace runs, no empties. -/
def pySplitWs (s : String) : List String :=
  wordsGo s.data []

/-- Helper for Python `str.split(sep)` with a non-empty separator:
non-overlapping leftmost occurrences delimit the fields (empty fields are
kept). -/
def splitOnStrGo (sep : List Char) : Nat → List Char → List Char → List String
  | 0, s, acc => [String.mk (acc.reverse ++ s)]
  | fuel + 1, s, acc =>
      match s with
      | [] => [String.mk acc.reverse]
      | c :: rest =>
          if List.isPrefixOf sep s then
            String.mk acc.reverse :: splitOnStrGo sep fuel (s.drop sep.length) []
          else splitOnStrGo sep fuel rest (c :: acc)

/-- Python `s.split(sep)` for a non-empty separator string. -/
def pySplitStr (sep : String) (s : String) : List String :=
  splitOnStrGo sep.data (s.data.length + 1) s.data []

/-- Python `sep.join(l)`. -/
def joinSep (sep : String) (l : List String) : String :=
  match l with
  | [] => ""
  | x :: xs => xs.foldl (fun acc y => acc ++ sep ++ y) x

/-- Python `int(s)` for plain decimal literals: strip whitespace, optional
sign, at least one digit; `none` models the `ValueError` raised otherwise
(in particular `int('')` raises). -/
def pyInt (s : String) : Option Int :=
  let t := (pyStrip s).data
  let core : Option (Bool × List Char) :=
    match t with
    | [] => none
    | c :: rest =>
        if c = '-' then some (true, rest)
        else if c = '+' then some (false, rest)
        else some (false, c :: rest)
  match core with
  | none => none
  | some (neg, ds) =>
      if ds.isEmpty || !(ds.all (fun c => '0' ≤ c && c ≤ '9')) then none
      else
        let n : Nat := ds.foldl (fun acc c => acc * 10 + (c.toNat - '0'.toNat)) 0
        some (if neg then -(n : Int) else (n : Int))

/-! ## `difflib.SequenceMatcher` model (used by `AreSimilar`)

`SequenceMatcher(None, a, b).ratio()` is `2*M/T` where `M` is the total size
of the matching blocks computed by the recursive longest-matching-block
algorithm and `T = len(a) + len(b)`.  With `isjunk = None` the junk set is
empty; `autojunk` discards from the index `b2j` the characters of `b`
occurring more than `len(b)//100 + 1` times when `len(b) >= 200`.  The
glide extensions of `find_longest_match` over junk characters are no-ops
for an empty junk set and are omitted; the non-junk extensions are kept. -/

/-- Ascending positions of `c` in `b` starting at offset `i`. -/
def idxOf : List Char → Char → Nat → List Nat
  | [], _, _ => []
  | d :: rest, c, i =>
      if d = c then i :: idxOf rest c (i + 1) else idxOf rest c (i + 1)

/-- Occurrence count of `c` in `b`. -/
def countC (b : List Char) (c : Char) : Nat :=
  (b.filter (· == c)).length

/-- The `b2j` index of `difflib`, with the `autojunk` popularity filter. -/
def b2j (b : List Char) (c : Char) : List Nat :=
  if b.length ≥ 200 && countC b c > b.length / 100 + 1 then []
  else idxOf b c 0

/-- One row of the `find_longest_match` dynamic program: given the previous
row `j2len`, the positions `js` of `a[i]` inside `[blo, bhi)`, produce the
new row and the updated best block `(besti, bestj, bestsize)`. -/
def flmRow (i : Nat) : List Nat → List (Nat × Nat) → List (Nat × Nat) →
    Nat × Nat × Nat → (List (Nat × Nat)) × (Nat × Nat × Nat)
  | [], _, newRow, best => (newRow, best)
  | j :: js, prevRow, newRow, best =>
      let prev : Nat := if j = 0 then 0 else ((prevRow.lookup (j - 1)).getD 0)
      let k := prev + 1
      let best' := if k > best.2.2 then (i + 1 - k, j + 1 - k, k) else best
      flmRow i js prevRow ((j, k) :: newRow) best'

/-- The `i`-loop of `find_longest_match` over `a[alo..ahi)`. -/
def flmLoop (a b : List Char) (blo bhi : Nat) :
    List Nat → List (Nat × Nat) → Nat × Nat × Nat → Nat × Nat × Nat
  | [], _, best => best
  | i :: is, prevRow, best =>
      let js := (b2j b (a.getD i ' ')).filter (fun j => blo ≤ j && j < bhi)
      let (newRow, best') := flmRow i js prevRow [] best
      flmLoop a b blo bhi is newRow best'

/-- Extend the best block leftwards while adjacent elements are equal
(the non-junk extension loop of `find_longest_match`). -/
def extendL (a b : List Char) (alo blo : Nat) :
    Nat → Nat × Nat × Nat → Nat × Nat × Nat
  | 0, best => best
  | fuel + 1, (bi, bj, bs) =>
      if bi > alo && bj > blo && (a.getD (bi - 1) ' ' == b.getD (bj - 1) (Char.ofNat 0)) then
        extendL a b alo blo fuel (bi - 1, bj - 1, bs + 1)
      else (bi, bj, bs)

/-- Extend the best block rightwards while adjacent elements are equal. -/
def extendR (a b : List Char) (ahi bhi : Nat) :
    Nat → Nat × Nat × Nat → Nat × Nat × Nat
  | 0, best => best
  | fuel + 1, (bi, bj, bs) =>
      if bi + bs < ahi && bj + bs < bhi &&
          (a.getD (bi + bs) ' ' == b.getD (bj + bs) (Char.ofNat 0)) then
        extendR a b ahi bhi fuel (bi, bj, bs + 1)
      else (bi, bj, bs)

/-- Model of `find_longest_match(alo, ahi, blo, bhi)` of `difflib`. -/
def flm (a b : List Char) (alo ahi blo bhi : Nat) : Nat × Nat × Nat :=
  let best := flmLoop a b blo bhi (List.range' alo (ahi - alo)) [] (alo, blo, 0)
  let best := extendL a b alo blo (a.length + 1) best
  extendR a b ahi bhi (b.length + 1) best

/-- Total size of the matching blocks of `get_matching_blocks` restricted to
`a[alo..ahi)` and `b[blo..bhi)`; the `ratio` only needs this total. -/
def matchTotal (a b : List Char) : Nat → Nat → Nat → Nat → Nat → Nat
  | 0, _, _, _, _ => 0
  | fuel + 1, alo, ahi, blo, bhi =>
      let (i, j, k) := flm a b alo ahi blo bhi
      if k = 0 then 0
      else matchTotal a b fuel alo i blo j + k + matchTotal a b fuel (i + k) ahi (j + k) bhi

/-- Model of `AreSimilar(str1, str2)` of classical_fixes.py (line 154): true iff
`SequenceMatcher(None, str1, str2).ratio() > .85`.  The ratio `2*M/T` is
compared exactly in the rationals (`ratio > .85  ↔  40*M > 17*T`); `difflib`
returns `1.0` when both strings are empty. -/
def AreSimilar (str1 str2 : String) : Bool :=
  let a := str1.data
  let b := str2.data
  let t := a.length + b.length
  if t = 0 then true
  else
    let m := matchTotal a b (t + 2) 0 a.length 0 b.length
    40 * m > 17 * t

/-! ## A small backtracking regex engine

This implements exactly the fragment of Python `re` used by the patterns in
classical_fixes.py: character classes, concatenation, alternation (preferring
the left branch), greedy `*` (hence `?`, `+`, `{2,}`, `{1,}` by encoding),
capture groups, and the word boundary `\b`.  `\w` for the boundary test is
modelled as ASCII alphanumerics plus underscore (every string a boundary is
tested against in this development is ASCII at that point).  The match
search order — leftmost position, then backtracking with greedy quantifiers
and left-first alternation — is Python's. -/

/-- Regex abstract syntax. -/
inductive Rgx where
  | eps
  | cls (p : Char → Bool)
  | seq (r1 r2 : Rgx)
  | alt (r1 r2 : Rgx)
  | star (r1 : Rgx)
  | grp (n : Nat) (r1 : Rgx)
  | wb

/-- Word character for `\b` (ASCII model of Python `\w`). -/
def isWordChar (c : Char) : Bool :=
  ('a' ≤ c && c ≤ 'z') || ('A' ≤ c && c ≤ 'Z') || ('0' ≤ c && c ≤ '9') || c == '_'

/-- Captured groups: most recent capture first. -/
abbrev Groups := List (Nat × List Char)

/-- Backtracking matcher in continuation style.  `prev` is the character
just before the current position (for `\b`); the continuation receives the
position after the sub-match.  Greedy `star` first tries to consume another
(non-empty) iteration, alternation tries the left branch first — Python's
backtracking order.  `fuel` bounds the recursion depth and is chosen large
enough by the callers below. -/
def rgxM (fuel : Nat) (r : Rgx) (prev : Option Char) (s : List Char) (g : Groups)
    (k : Option Char → List Char → Groups → Option (List Char × Groups)) :
    Option (List Char × Groups) :=
  match fuel with
  | 0 => none
  | fuel + 1 =>
    match r with
    | .eps => k prev s g
    | .cls p =>
        match s with
        | [] => none
        | c :: rest => if p c then k (some c) rest g else none
    | .seq r1 r2 => rgxM fuel r1 prev s g (fun p2 s2 g2 => rgxM fuel r2 p2 s2 g2 k)
    | .alt r1 r2 =>
        match rgxM fuel r1 prev s g k with
        | some res => some res
        | none => rgxM fuel r2 prev s g k
    | .star r1 =>
        match rgxM fuel r1 prev s g (fun p2 s2 g2 =>
            if s2.length < s.length then rgxM fuel (.star r1) p2 s2 g2 k else none) with
        | some res => some res
        | none => k prev s g
    | .grp n r1 =>
        rgxM fuel r1 prev s g (fun p2 s2 g2 =>
          k p2 s2 ((n, s.take (s.length - s2.length)) :: g2))
    | .wb =>
        let lw := match prev with | some c => isWordChar c | none => false
        let rw := match s with | c :: _ => isWordChar c | [] => false
        if lw != rw then k prev s g else none

/-- Try to match `r` at the current position; on success return the rest of
the input and the captured groups. -/
def rgxTry (r : Rgx) (prev : Option Char) (s : List Char) :
    Option (List Char × Groups) :=
  rgxM ((s.length + 20) * 60 + 400) r prev s [] (fun _ s2 g2 => some (s2, g2))

/-- Replacement template item: literal text or a group reference `\n`. -/
inductive Tmpl where
  | lit (t : String)
  | ref (n : Nat)

/-- Render a replacement template against the captured groups. -/
def renderT (tmpl : List Tmpl) (g : Groups) : List Char :=
  tmpl.foldr (fun item acc =>
    match item with
    | .lit t => t.data ++ acc
    | .ref n => ((g.lookup n).getD []) ++ acc) []

/-- The scan of `re.sub`: at each position try the pattern (leftmost match);
on a (necessarily non-empty, for every pattern used in the source) match,
emit the rendered replacement and resume after the match, otherwise copy one
character.  `prev` tracks the preceding character of the original string for
`\b`. -/
def reSubGo (r : Rgx) (tmpl : List Tmpl) : Nat → Option Char → List Char → List Char
  | 0, _, s => s
  | fuel + 1, prev, s =>
      match s with
      | [] => []
      | c :: rest =>
        match rgxTry r prev s with
        | some (s2, g) =>
            let consumed := s.length - s2.length
            if 0 < consumed then
              renderT tmpl g ++
                reSubGo r tmpl fuel ((s.take consumed).getLast? ) s2
            else c :: reSubGo r tmpl fuel (some c) rest
        | none => c :: reSubGo r tmpl fuel (some c) rest

/-- Python `re.sub(pattern, repl, s)` for the patterns of the source. -/
def reSub (r : Rgx) (tmpl : List Tmpl) (s : String) : String :=
  String.mk (reSubGo r tmpl (s.data.length + 1) none s.data)

/-- Class matching one of the characters of `cs`. -/
def oneOf (cs : String) : Rgx :=
  .cls (fun c => cs.data.contains c)

/-- Class matching exactly `c`. -/
def chC (c : Char) : Rgx :=
  .cls (fun d => d == c)

/-- A literal string as a regex. -/
def litR (t : String) : Rgx :=
  t.data.foldr (fun c r => .seq (chC c) r) .eps

/-- Concatenation of a list of regexes. -/
def rcat (l : List Rgx) : Rgx :=
  l.foldr .seq .eps

/-- Greedy `?`. -/
def ropt (r : Rgx) : Rgx :=
  .alt r .eps

/-- Greedy `{1,}` (i.e. `+`). -/
def rep1 (r : Rgx) : Rgx :=
  .seq r (.star r)

/-- The digit class `[0-9]`. -/
def digitC : Rgx :=
  .cls (fun c => '0' ≤ c && c ≤ '9')

/-- The class `\s` (whitespace; ASCII model, matching `pyIsSpace`). -/
def spaceC : Rgx :=
  .cls pyIsSpace

/-- The ordered rewrite-rule table `regexes` of classical_fixes.py
(lines 78-100), one entry per Python list element, in source order.  Each
comment gives the original pattern and replacement literals. -/
def textRules : List (Rgx × List Tmpl) := [
  -- '\b[Nn][Uu][Mm][Bb][Ee][Rr][ ]*([0-9])'  ->  '#\1'
  (rcat [.wb, oneOf "Nn", oneOf "Uu", oneOf "Mm", oneOf "Bb", oneOf "Ee", oneOf "Rr",
         .star (chC ' '), .grp 1 digitC],
   [.lit "#", .ref 1]),
  -- '\b[Nn][Oo][.]?[ ]*([0-9])'  ->  '#\1'
  (rcat [.wb, oneOf "Nn", oneOf "Oo", ropt (chC '.'), .star (chC ' '), .grp 1 digitC],
   [.lit "#", .ref 1]),
  -- '\b[Nn][Rr][.]?[ ]*([0-9])'  ->  '#\1'
  (rcat [.wb, oneOf "Nn", oneOf "Rr", ropt (chC '.'), .star (chC ' '), .grp 1 digitC],
   [.lit "#", .ref 1]),
  -- '\b[Nn][Bb][Rr][.]?\s([0-9])'  ->  '#\1'
  (rcat [.wb, oneOf "Nn", oneOf "Bb", oneOf "Rr", ropt (chC '.'), spaceC, .grp 1 digitC],
   [.lit "#", .ref 1]),
  -- '\b[Oo][Pp][Uu][Ss][ ]*([0-9])'  ->  'Op. \1'
  (rcat [.wb, oneOf "Oo", oneOf "Pp", oneOf "Uu", oneOf "Ss", .star (chC ' '),
         .grp 1 digitC],
   [.lit "Op. ", .ref 1]),
  -- '\b[Oo][Pp][.]?[ ]*([0-9])'  ->  'Op. \1'
  (rcat [.wb, oneOf "Oo", oneOf "Pp", ropt (chC '.'), .star (chC ' '), .grp 1 digitC],
   [.lit "Op. ", .ref 1]),
  -- '\b[Ss][Yy][Mm][ |.][ ]*([0-9])'  ->  'Symphony \1'
  (rcat [.wb, oneOf "Ss", oneOf "Yy", oneOf "Mm", oneOf " |.", .star (chC ' '),
         .grp 1 digitC],
   [.lit "Symphony ", .ref 1]),
  -- '\b[Ss][Yy][Mm][Pp][Hh][Oo][Nn][Ii][Ee][ ]*[#]?([0-9])'  ->  'Symphony #\1'
  (rcat [.wb, oneOf "Ss", oneOf "Yy", oneOf "Mm", oneOf "Pp", oneOf "Hh", oneOf "Oo",
         oneOf "Nn", oneOf "Ii", oneOf "Ee", .star (chC ' '), ropt (chC '#'),
         .grp 1 digitC],
   [.lit "Symphony #", .ref 1]),
  -- '\b[Mm][Ii][Nn][.]'  ->  'min.'
  (rcat [.wb, oneOf "Mm", oneOf "Ii", oneOf "Nn", chC '.'], [.lit "min."]),
  -- '\b[Mm][Aa][Jj][.]'  ->  'Maj.'
  (rcat [.wb, oneOf "Mm", oneOf "Aa", oneOf "Jj", chC '.'], [.lit "Maj."]),
  -- '\b[Mm][Ii][Nn][Ee][Uu][Rr]\b'  ->  'min.'
  (rcat [.wb, oneOf "Mm", oneOf "Ii", oneOf "Nn", oneOf "Ee", oneOf "Uu", oneOf "Rr",
         .wb],
   [.lit "min."]),
  -- '\b[Mm][Aa][Jj][Ee][Uu][Rr]\b'  ->  'Maj.'
  (rcat [.wb, oneOf "Mm", oneOf "Aa", oneOf "Jj", oneOf "Ee", oneOf "Uu", oneOf "Rr",
         .wb],
   [.lit "Maj."]),
  -- '\b[Mm][Aa][Jj][Ee][Uu][Rr]\b'  ->  'Maj.'   (duplicated in the source)
  (rcat [.wb, oneOf "Mm", oneOf "Aa", oneOf "Jj", oneOf "Ee", oneOf "Uu", oneOf "Rr",
         .wb],
   [.lit "Maj."]),
  -- '\b[Bb][. ]*[Ww][. ]*[Vv][. #]*([0-9])'  ->  'BWV \1'
  (rcat [.wb, oneOf "Bb", .star (oneOf ". "), oneOf "Ww", .star (oneOf ". "),
         oneOf "Vv", .star (oneOf ". #"), .grp 1 digitC],
   [.lit "BWV ", .ref 1]),
  -- '\b[Hh][. ]*[Ww][. ]*[Vv][. #]*([0-9])'  ->  'HWV \1'
  (rcat [.wb, oneOf "Hh", .star (oneOf ". "), oneOf "Ww", .star (oneOf ". "),
         oneOf "Vv", .star (oneOf ". #"), .grp 1 digitC],
   [.lit "HWV ", .ref 1]),
  -- '\b[Hh][ .]?[Oo]?[. ]?[Bb]?[ .]{1,}([XxVvIi]{1,}[Aa]?)'  ->  'Hob. \1'
  (rcat [.wb, oneOf "Hh", ropt (oneOf " ."), ropt (oneOf "Oo"), ropt (oneOf ". "),
         ropt (oneOf "Bb"), rep1 (oneOf " ."),
         .grp 1 (.seq (rep1 (oneOf "XxVvIi")) (ropt (oneOf "Aa")))],
   [.lit "Hob. ", .ref 1]),
  -- '\b[Kk][ .]*([0-9])'  ->  'K. \1'
  (rcat [.wb, oneOf "Kk", .star (oneOf " ."), .grp 1 digitC],
   [.lit "K. ", .ref 1]),
  -- '\b[Aa][Nn][Hh][ .]*([0-9])'  ->  'Anh. \1'
  (rcat [.wb, oneOf "Aa", oneOf "Nn", oneOf "Hh", .star (oneOf " ."), .grp 1 digitC],
   [.lit "Anh. ", .ref 1]),
  -- '[,]([^ ])'  ->  ', \1'
  (rcat [chC ',', .grp 1 (.cls (fun c => !(c == ' ')))],
   [.lit ", ", .ref 1]),
  -- '[ ][:]'  ->  ':'
  (rcat [chC ' ', chC ':'], [.lit ":"]),
  -- '\s{2,}'  ->  ' '
  (rcat [spaceC, spaceC, .star spaceC], [.lit " "])]

/-- Apply the full ordered rule table to one string (the net effect of the
per-rule loop of `fixFile`, lines 592-607, projected onto a single field). -/
def applyTextRules (s : String) : String :=
  textRules.foldl (fun acc rule => reSub rule.1 rule.2 acc) s

/-! ## KeyNormalizer and NameTransforms -/

/-- Model of `unicodedata.normalize('NFD', _)` per character, restricted to
the characters this development evaluates `makeKey` on: ASCII characters are
their own decomposition; the listed precomposed Latin letters decompose into
their base letter followed by a combining mark (U+0308 diaeresis, U+0301
acute, U+0300 grave). -/
def nfdChar (c : Char) : List Char :=
  if c == 'ö' then ['o', Char.ofNat 776]
  else if c == 'Ö' then ['O', Char.ofNat 776]
  else if c == 'ü' then ['u', Char.ofNat 776]
  else if c == 'ä' then ['a', Char.ofNat 776]
  else if c == 'é' then ['e', Char.ofNat 769]
  else if c == 'á' then ['a', Char.ofNat 769]
  else if c == 'è' then ['e', Char.ofNat 768]
  else [c]

/-- Model of `unicodedata.category(c) == 'Mn'` for the combining marks
produced by `nfdChar`. -/
def isMn (c : Char) : Bool :=
  c == Char.ofNat 776 || c == Char.ofNat 769 || c == Char.ofNat 768

/-- Python `str.replace(c, '')` for a single-character needle: removes every
occurrence. -/
def removeChar (c : Char) (l : List Char) : List Char :=
  l.filter (fun d => !(d == c))

/-- Model of `makeKey(inputstring)` of classical_fixes.py (lines 109-119): NFD
decomposition, drop combining marks, then the six sequential
`str.replace(x, '')` calls of the source, then `str.lower()`. -/
def makeKey (inputstring : String) : String :=
  let stripped := ((inputstring.data.map nfdChar).flatten).filter (fun c => !(isMn c))
  let stripped := removeChar '-' stripped
  let stripped := removeChar ' ' stripped
  let stripped := removeChar '/' stripped
  let stripped := removeChar '.' stripped
  let stripped := removeChar (Char.ofNat 39) stripped
  let stripped := removeChar ',' stripped
  String.mk (stripped.map Char.toLower)

/-- The reference normalization in the words of spec.md section 4.1:
decompose to NFD, drop combining marks, remove the characters
`- ' . , /` and spaces in one pass, lower-case the remainder. -/
def makeKeySpec (s : String) : String :=
  let banned : List Char := ['-', ' ', '/', '.', Char.ofNat 39, ',']
  String.mk
    (((((s.data.map nfdChar).flatten).filter (fun c => !(isMn c))).filter
      (fun c => !(banned.contains c))).map Char.toLower)

/-- Model of `COMMON_SUFFIXES` of classical_fixes.py (line 102). -/
def COMMON_SUFFIXES : List String :=
  ["jr", "sr", "jr.", "sr.", "i", "ii", "iii", "iv", "v", "vi", "vii", "viii",
   "ix", "x", "xi"]

/-- Model of `reverseName(inputString)` of classical_fixes.py (lines 122-134):
strip, split on single spaces (keeping empty fields, as Python
`split(' ')` does), then reassemble as `Last, First ...` with the
suffix handling of the source.  `parts[-1]` is `getLastD`, `parts[-2]`
is `getD (len-2)`, `parts[:len-2]` is `take (len-2)`; the lists these
index into are nonempty, so the defaults are never used. -/
def reverseName (inputString : String) : String :=
  let nameOut := pyStrip inputString
  let nameParts := pySplitStr " " nameOut
  if nameParts.length > 1 then
    if pyLower (nameParts.getLastD "") ∈ COMMON_SUFFIXES then
      if nameParts.length > 2 then
        nameParts.getD (nameParts.length - 2) "" ++ ", " ++
          joinSep " " (nameParts.take (nameParts.length - 2)) ++ " " ++
          nameParts.getLastD ""
      else nameOut
    else
      nameParts.getLastD "" ++ ", " ++ joinSep " " (nameParts.take (nameParts.length - 1))
  else nameOut

/-- Model of `getLastName(inputString)` of classical_fixes.py (lines 160-161):
`reverseName(inputString).split()[0]`.  `none` models the `IndexError`
raised when the whitespace split is empty. -/
def getLastName (inputString : String) : Option String :=
  (pySplitWs (reverseName inputString)).head?

/-- First characters of every string in `l`, concatenated
(`''.join(str(s)[0] for s in l)`); `none` models the `IndexError` on an
empty element. -/
def initialsOf (l : List String) : Option String :=
  l.foldr (fun p acc =>
    match p.data with
    | [] => none
    | c :: _ => acc.map (fun r => String.mk (c :: r.data))) (some "")

/-- Model of `getInitialsName(inputString)` of classical_fixes.py (lines 164-178).
`none` models the `IndexError` raised on an empty token (in particular
`nameOut[0]` on the empty string). -/
def getInitialsName (inputString : String) : Option String :=
  let nameOut := pyStrip inputString
  let nameParts := pySplitStr " " nameOut
  if nameParts.length > 1 then
    if pyLower (nameParts.getLastD "") ∈ COMMON_SUFFIXES then
      if nameParts.length > 2 then
        (initialsOf (nameParts.take (nameParts.length - 2))).map (fun ini =>
          pyLower (ini ++ nameParts.getD (nameParts.length - 2) "" ++
            nameParts.getLastD ""))
      else some (pyLower nameOut)
    else
      (initialsOf (nameParts.take (nameParts.length - 1))).map (fun ini =>
        pyLower (ini ++ nameParts.getLastD ""))
  else
    match nameOut.data with
    | [] => none
    | c :: _ => some (pyLower (String.mk [c]))

/-! ## Fixed search patterns of the source -/

/-- The alternatives of `ORCH_RE` (classical_fixes.py line 77):
`[Oo]rchestr|[Oo]rkest|[Pp]hilharmoni|[Cc]onsort|[Ee]nsemb|[Ss]infonia|[Ss]ymphon|[Bb]and`.
Each word is stored lower-case; only its first character is case-insensitive
in the pattern. -/
def orchWords : List String :=
  ["orchestr", "orkest", "philharmoni", "consort", "ensemb", "sinfonia",
   "symphon", "band"]

/-- Does `cs` start with `w`, the first character of `w` taken
case-insensitively (ASCII) and the rest exactly? -/
def startsWithCI1 : List Char → List Char → Bool
  | _, [] => true
  | [], _ :: _ => false
  | c :: cs, w0 :: ws =>
      (c == w0 || Char.toLower c == w0) && List.isPrefixOf ws cs

/-- Model of `ORCH_RE.search(s)`: some suffix of `s` starts with one of the
alternatives. -/
def orchSearch (s : String) : Bool :=
  (s.data.tails).any (fun suf => orchWords.any (fun w => startsWithCI1 suf w.data))

/-- Model of `AMP_RE.search(s)` for `AMP_RE = '([&]|[and]) ([Hh]is Orchestra|Chorus)'`
(classical_fixes.py line 106).  Note `[and]` is a character class: the first
alternative is a single character drawn from `& a n d`. -/
def ampSearch (s : String) : Bool :=
  (s.data.tails).any (fun suf =>
    match suf with
    | c :: ' ' :: rest =>
        (c == '&' || c == 'a' || c == 'n' || c == 'd') &&
        (match rest with
         | h :: rest2 => ((h == 'H' || h == 'h') && List.isPrefixOf "is Orchestra".data rest2) ||
                         (h == 'C' && List.isPrefixOf "horus".data rest2)
         | [] => false)
    | _ => false)

/-- Model of `re.sub('[[]' + last + '[]]', '', album, flags=re.IGNORECASE)`:
remove every occurrence of `[last]`, matching letters case-insensitively
(ASCII).  `last` is interpolated into the pattern verbatim by the source;
every string it is instantiated with here contains no regex
metacharacters, so literal matching is faithful. -/
def bracketSub (last : String) (album : String) : String :=
  let needle : List Char := '[' :: last.data ++ [']']
  let rec go : Nat → List Char → List Char
    | 0, s => s
    | _ + 1, [] => []
    | fuel + 1, c :: rest =>
        let s := c :: rest
        if needle.length ≤ s.length &&
            List.all (List.zip needle (s.take needle.length))
              (fun p => Char.toLower p.1 == Char.toLower p.2) then
          go fuel (s.drop needle.length)
        else c :: go fuel rest
  String.mk (go album.data.length album.data)

/-- The album pattern of `DISC_RE = '(.*)[Dd][Ii][Ss][CcKk][ ]*([0-9]*)'`
(classical_fixes.py line 104): does position `p` of `cs` carry the
`Disc`/`Disk` token? -/
def discTokenAt (cs : List Char) (p : Nat) : Bool :=
  p + 4 ≤ cs.length &&
  (cs.getD p ' ' == 'D' || cs.getD p ' ' == 'd') &&
  (cs.getD (p + 1) ' ' == 'I' || cs.getD (p + 1) ' ' == 'i') &&
  (cs.getD (p + 2) ' ' == 'S' || cs.getD (p + 2) ' ' == 's') &&
  (cs.getD (p + 3) ' ' == 'C' || cs.getD (p + 3) ' ' == 'c' ||
   cs.getD (p + 3) ' ' == 'K' || cs.getD (p + 3) ' ' == 'k')

/-- Model of `DISC_RE.match(s)`: anchored at the start, greedy `(.*)` — so group 1
ends at the last `Disc`/`Disk` token reachable by `.` (which does not cross
a newline), after which `[ ]*` takes the spaces and `([0-9]*)` the digits.
Returns `(group 1, group 2)`, or `none` when no token occurs. -/
def discMatch (s : String) : Option (String × String) :=
  let cs := s.data
  match ((List.range cs.length).filter (fun p =>
      discTokenAt cs p && !((cs.take p).contains (Char.ofNat 10)))).getLast? with
  | none => none
  | some p =>
      let rest := cs.drop (p + 4)
      let afterSp := rest.dropWhile (fun c => c == ' ')
      let digits := afterSp.takeWhile (fun c => '0' ≤ c && c ≤ '9')
      some (String.mk (cs.take p), String.mk digits)

/-! ## Association-list maps

Python dictionaries (the artist lookup) and the host application's tag store
(`picard.Metadata`: key membership via `in`, read returning `''` for a
missing key, multi-value writes joined back with `'; '` on read) are both
embedded as association lists with first-match lookup and
replace-or-append update. -/

/-- First-match association lookup. -/
def assocFind {β : Type} : List (String × β) → String → Option β
  | [], _ => none
  | (k, v) :: rest, key => if k = key then some v else assocFind rest key

/-- Replace the first binding of `key`, or append a new one. -/
def assocSet {β : Type} : List (String × β) → String → β → List (String × β)
  | [], key, v => [(key, v)]
  | (k, w) :: rest, key, v =>
      if k = key then (key, v) :: rest else (k, w) :: assocSet rest key v

/-- A track's tag store. -/
abbrev Metadata := List (String × String)

/-- Membership test `key in f.metadata`. -/
def mHas (f : Metadata) (k : String) : Bool :=
  (assocFind f k).isSome

/-- Read `f.metadata[key]` — the empty string for a missing key, as in picard. -/
def mGet (f : Metadata) (k : String) : String :=
  (assocFind f k).getD ""

/-- Write `f.metadata[key] = value`. -/
def mSet (f : Metadata) (k v : String) : Metadata :=
  assocSet f k v

/-! ## ArtistRegistry -/

/-- One record of the lookup table (class `ArtistLookup`,
classical_fixes.py lines 137-151). -/
structure ArtistLookup where
  key : String
  name : String
  sortorder : String
  sortorderwithdates : String
  primaryrole : String
  primaryepoque : String
deriving DecidableEq

/-- The `ArtistLookup.__init__` constructor, which strips every field. -/
def ArtistLookup.make (key name sort sortwithdate role epoque : String) : ArtistLookup :=
  ⟨pyStrip key, pyStrip name, pyStrip sort, pyStrip sortwithdate, pyStrip role,
   pyStrip epoque⟩

/-- The in-memory lookup table (`artistDict`). -/
abbrev ArtistDict := List (String × ArtistLookup)

/-- Membership test `key in artistDict`. -/
def mdHas (d : ArtistDict) (k : String) : Bool :=
  (assocFind d k).isSome

/-- Display name of the record at `k` (only read under a guard that the key
is present, matching `artistDict[key].name`). -/
def dictName (d : ArtistDict) (k : String) : String :=
  match assocFind d k with
  | some r => r.name
  | none => ""

/-- Model of `upsertArtist` of classical_fixes.py (lines 181-200).  The record is
stored unconditionally under `makeKey(name)`; when the role is not
`'Orchestra'` it is additionally stored under the last-name key and the
initials key, each only when that key is absent or its occupant's display
name is `AreSimilar` to `name`.  `getLastName`/`getInitialsName` raise on
degenerate names; `.error` carries the dictionary as mutated so far (the
Python dict is mutated in place before the exception propagates). -/
def upsertArtist (artistDict : ArtistDict) (name sortOrderName sortOrderNameWithDates
    primaryRole epoque : String) : Except ArtistDict ArtistDict :=
  let key := makeKey name
  let d1 := assocSet artistDict key
    (ArtistLookup.make key name sortOrderName sortOrderNameWithDates primaryRole epoque)
  if primaryRole ≠ "Orchestra" then
    match getLastName name with
    | none => .error d1
    | some ln =>
        let key2 := makeKey ln
        let d2 :=
          if !(mdHas d1 key2) || (mdHas d1 key2 && AreSimilar (dictName d1 key2) name) then
            assocSet d1 key2
              (ArtistLookup.make key2 name sortOrderName sortOrderNameWithDates
                primaryRole epoque)
          else d1
        match getInitialsName name with
        | none => .error d2
        | some ini =>
            let key3 := makeKey ini
            let d3 :=
              if !(mdHas d2 key3) || (mdHas d2 key3 && AreSimilar (dictName d2 key3) name) then
                assocSet d2 key3
                  (ArtistLookup.make key3 name sortOrderName sortOrderNameWithDates
                    primaryRole epoque)
              else d2
            .ok d3
  else .ok d1

/-! ## FieldReconciler: `fixFile` (classical_fixes.py lines 302-626)

The function is split into named phases in source order.  The registry is an
explicit parameter (the source holds it in a module-level global); the
timestamp written at the end is the `now` parameter.  Exceptions inside the
body are caught by the source's outermost handler; the only raising
operations reachable with string-valued tags and a dictionary registry are
the two `getLastName` calls of the bracket-cleanup step, so the body is
modelled as `Except Metadata Metadata` whose `.error` carries the state at
the raise point. -/

/-- Model of `expandList(thelist, splitchar)` (lines 248-266) for a string argument:
split and strip each element. -/
def expandList (thelist : String) (splitchar : String) : List String :=
  (pySplitStr splitchar thelist).map pyStrip

/-- Model of `'k' not in f.metadata or f.metadata['k'] == ''`. -/
def fieldEmpty (f : Metadata) (k : String) : Bool :=
  !(mHas f k) || (mGet f k == "")

/-- One iteration of the role-inference loops (lines 325-342 and 345-362):
look the name up by key; for a found record, fill `orchestra` /
`conductor` / `composer` when the corresponding field is absent or empty;
a composer fill also writes `composer view`, `composersort`, `epoque`. -/
def roleInferOne (lookup : ArtistDict) (f : Metadata) (name : String) : Metadata :=
  match assocFind lookup (makeKey name) with
  | none => f
  | some foundArtist =>
      let f := if foundArtist.primaryrole == "Orchestra" && fieldEmpty f "orchestra" then
                 mSet f "orchestra" foundArtist.name
               else f
      let f := if foundArtist.primaryrole == "Conductor" && fieldEmpty f "conductor" then
                 mSet f "conductor" foundArtist.name
               else f
      if foundArtist.primaryrole == "Composer" && fieldEmpty f "composer" then
        mSet (mSet (mSet (mSet f "composer" foundArtist.name)
          "composer view" foundArtist.sortorderwithdates)
          "composersort" foundArtist.sortorder)
          "epoque" foundArtist.primaryepoque
      else f

/-- Single-composer re-lookup (lines 369-387). -/
def composerRelookup (lookup : ArtistDict) (f : Metadata) : Metadata :=
  if mHas f "composer" && !(mGet f "composer" == "") &&
      (expandList (mGet f "composer") ";").length == 1 then
    match assocFind lookup (makeKey (mGet f "composer")) with
    | some foundComposer =>
        if foundComposer.primaryrole == "Composer" then
          let f := mSet f "composer" foundComposer.name
          let f := mSet f "composer view" foundComposer.sortorderwithdates
          let f := mSet f "composersort" foundComposer.sortorder
          if !(foundComposer.primaryepoque == "") then
            mSet f "epoque" foundComposer.primaryepoque
          else f
        else f
    | none =>
        if !(mHas f "composer view") then
          let f := mSet f "composer view" (reverseName (mGet f "composer"))
          mSet f "composersort" (mGet f "composer view")
        else f
  else f

/-- Conductor canonicalization (lines 391-398). -/
def conductorCanon (lookup : ArtistDict) (f : Metadata) : Metadata :=
  if mHas f "conductor" && !(mGet f "conductor" == "") then
    match assocFind lookup (makeKey (mGet f "conductor")) with
    | some foundConductor =>
        if foundConductor.primaryrole == "Conductor" then
          mSet f "conductor" foundConductor.name
        else f
    | none => f
  else f

/-- Orchestra canonicalization (lines 402-409). -/
def orchestraCanon (lookup : ArtistDict) (f : Metadata) : Metadata :=
  if mHas f "orchestra" && !(mGet f "orchestra" == "") then
    match assocFind lookup (makeKey (mGet f "orchestra")) with
    | some foundOrchestra =>
        if foundOrchestra.primaryrole == "Orchestra" then
          mSet f "orchestra" foundOrchestra.name
        else f
    | none => f
  else f

/-- Orchestra inference from free text (lines 413-426, one list at a time):
when `orchestra` is absent, assign the first name matching `ORCH_RE`. -/
def orchInferFrom (names : List String) (f : Metadata) : Metadata :=
  if !(mHas f "orchestra") then
    match names.find? (fun artist => orchSearch artist) with
    | some artist => mSet f "orchestra" artist
    | none => f
  else f

/-- The album-artist scan of the reordering step (lines 439-448): the
`continue` after a conductor hit skips the orchestra test for that entry;
later hits overwrite earlier ones. -/
def scanAAForCO (tAAs : List String) (cond orch : String) : String × String :=
  tAAs.foldl (fun acc artist =>
    if AreSimilar (pyLower artist) (pyLower cond) then (artist, acc.2)
    else if AreSimilar (pyLower artist) (pyLower orch) then (acc.1, artist)
    else acc) ("", "")

/-- The artist scan of the reordering step (lines 471-478): no `continue`,
both tests run for every entry. -/
def scanArtForCO (tAs : List String) (cond orch : String) : String × String :=
  tAs.foldl (fun acc artist =>
    let c1 := if AreSimilar (pyLower artist) (pyLower cond) then artist else acc.1
    let c2 := if AreSimilar (pyLower artist) (pyLower orch) then artist else acc.2
    (c1, c2)) ("", "")

/-- Album-artist reordering (lines 431-461): when a conductor or orchestra
fuzzy-matches an entry, rebuild the list as conductor, orchestra, then the
remaining entries, and assign the joined string if it differs. -/
def rebuildAlbumArtists (f : Metadata) (tAAs : List String) : Metadata :=
  if mHas f "conductor" || mHas f "orchestra" then
    let sc := scanAAForCO tAAs (mGet f "conductor") (mGet f "orchestra")
    let fc := sc.1
    let fo := sc.2
    if !(fc == "") || !(fo == "") then
      let newTag :=
        (if !(fc == "") then [mGet f "conductor"] else []) ++
        (if !(fo == "") then [mGet f "orchestra"] else []) ++
        tAAs.filter (fun artist =>
          !(pyLower artist == pyLower fo) && !(pyLower artist == pyLower fc))
      let tagValue := joinSep "; " newTag
      if !(mGet f "albumartist" == tagValue) then mSet f "albumartist" tagValue else f
    else f
  else f

/-- Artist reordering (lines 466-490).  The assignment guard compares the
stored string against a Python list, which is never equal, so the rebuilt
list is always assigned (multi-value writes read back `'; '`-joined). -/
def rebuildArtists (f : Metadata) (tAs : List String) : Metadata :=
  if mHas f "conductor" || mHas f "orchestra" then
    let sc := scanArtForCO tAs (mGet f "conductor") (mGet f "orchestra")
    let fc := sc.1
    let fo := sc.2
    if !(fc == "") || !(fo == "") then
      let newTag :=
        (if !(fc == "") then [mGet f "conductor"] else []) ++
        (if !(fo == "") then [mGet f "orchestra"] else []) ++
        tAs.filter (fun artist =>
          !(pyLower artist == pyLower fc) && !(pyLower artist == pyLower fo))
      mSet f "artist" (joinSep "; " newTag)
    else f
  else f

/-- Ampersand splitting of one list (lines 498-513 and 517-532): split each
entry containing `&` unless `AMP_RE` matches it. -/
def ampProcess (names : List String) : List String :=
  names.foldl (fun acc aa =>
    if aa.data.contains '&' then
      if !(ampSearch aa) then acc ++ expandList aa "&" else acc ++ [aa]
    else acc ++ [aa]) []

/-- Composer removal from the lists (lines 543-558): entries fuzzy-similar
to the composer are dropped (survivors are stripped); an emptied list is
not assigned. -/
def composerRemoval (f : Metadata) (tAs tAAs : List String) : Metadata :=
  if mHas f "composer" then
    let comp := pyLower (pyStrip (mGet f "composer"))
    let newArtists := (tAs.filter (fun a => !(AreSimilar (pyLower (pyStrip a)) comp))).map pyStrip
    let f := if !(newArtists.isEmpty) then mSet f "artist" (joinSep "; " newArtists) else f
    let newAA := (tAAs.filter (fun a => !(AreSimilar (pyLower (pyStrip a)) comp))).map pyStrip
    if !(newAA.isEmpty) then mSet f "albumartist" (joinSep "; " newAA) else f
  else f

/-- Lines 305-577 of `fixFile`: everything before the `album artist`
mirror assignment. -/
def fixFilePre (lookup : ArtistDict) (f0 : Metadata) : Metadata :=
  let f := f0
  let trackArtists := if mHas f "artist" then expandList (mGet f "artist") ";" else []
  let f := if mHas f "album artist" && !(mHas f "albumartist") then
             mSet f "albumArtist" (mGet f "album artist")
           else f
  let trackAlbumArtists := if mHas f "albumartist" then expandList (mGet f "albumartist") ";"
                           else []
  let f := trackArtists.foldl (roleInferOne lookup) f
  let f := trackAlbumArtists.foldl (roleInferOne lookup) f
  let f := composerRelookup lookup f
  let f := conductorCanon lookup f
  let f := orchestraCanon lookup f
  let f := orchInferFrom trackArtists f
  let f := orchInferFrom trackAlbumArtists f
  let f := rebuildAlbumArtists f trackAlbumArtists
  let f := rebuildArtists f trackArtists
  let tAA2 := expandList (mGet f "albumartist") ";"
  let tA2 := expandList (mGet f "artist") ";"
  let f := mSet f "albumartist" (joinSep "; " (ampProcess tAA2))
  let f := mSet f "artist" (joinSep "; " (ampProcess tA2))
  let tAA3 := expandList (mGet f "albumartist") ";"
  let tA3 := expandList (mGet f "artist") ";"
  let f := composerRemoval f tA3 tAA3
  let f := if mGet f "albumartist" == "Various" then mSet f "albumartist" "Various Artists"
           else f
  let f := if !(mHas f "artist") && mHas f "albumartist" then
             mSet f "artist" (joinSep "; " (pySplitStr "; " (mGet f "albumartist")))
           else f
  let f := if !(mHas f "albumartist") && mHas f "artist" then
             mSet f "albumartist" (mGet f "artist")
           else f
  f

/-- One bracket-cleanup assignment (lines 586-589): strip `[lastname]` of
the named field's value from the album title; `.error` models the
`IndexError` from `getLastName` on a degenerate value. -/
def bracketStep (key : String) (f : Metadata) : Except Metadata Metadata :=
  if mHas f key then
    match getLastName (mGet f key) with
    | none => .error f
    | some ln => .ok (mSet f "album" (pyStrip (bracketSub ln (mGet f "album"))))
  else .ok f

/-- One pass of the rule loop (lines 594-607): rewrite `title` and `album`
by the rule, assigning each only when it changed. -/
def regexStep (f : Metadata) (rule : Rgx × List Tmpl) : Metadata :=
  let trackName := reSub rule.1 rule.2 (mGet f "title")
  let albumName := reSub rule.1 rule.2 (mGet f "album")
  let f := if !(mGet f "title" == trackName) then mSet f "title" trackName else f
  if !(mGet f "album" == albumName) then mSet f "album" albumName else f

/-- Model of `SUB_GENRES` (line 76). -/
def SUB_GENRES : List String :=
  ["opera", "operetta", "orchestral", "symphonic", "chamber", "choral", "vocal",
   "sacred", "concerto", "sonata", "oratorio"]

/-- Lines 592-622: the rule loop, the genre step and the timestamp. -/
def fixFilePost (now : String) (f0 : Metadata) : Metadata :=
  let f := textRules.foldl regexStep f0
  let f :=
    if mHas f "genre" then
      if !(mGet f "genre" == "Classical") then
        if pyLower (mGet f "genre") ∈ SUB_GENRES then
          mSet (mSet f "origgenre" (mGet f "genre")) "genre" "Classical"
        else f
      else f
    else mSet f "genre" "Classical"
  mSet f "classicalfixesdate" now

/-- The tail of the `fixFile` body from the bracket-cleanup step on (the
part of the body that can raise), lines 586-622. -/
def bracketChain (now : String) (f2 : Metadata) : Except Metadata Metadata :=
  match bracketStep "conductor" f2 with
  | .error m => .error m
  | .ok f3 =>
      match bracketStep "composer" f3 with
      | .error m => .error m
      | .ok f4 => .ok (fixFilePost now f4)

/-- The body of `fixFile`; `.error` carries the metadata at the raise
point of the bracket-cleanup step. -/
def fixFileE (lookup : ArtistDict) (now : String) (f0 : Metadata) :
    Except Metadata Metadata :=
  let f1 := fixFilePre lookup f0
  bracketChain now (mSet f1 "album artist" (mGet f1 "albumartist"))

/-- Collapse a run outcome to the final metadata: the state a normal run
ends in, or the state a caught exception left behind. -/
def exceptJoin (e : Except Metadata Metadata) : Metadata :=
  match e with
  | .ok m => m
  | .error m => m

/-- Model of `fixFile` as observed by callers: the outermost handler catches any
exception, so the metadata is left in whatever state the body reached. -/
def fixFile (lookup : ArtistDict) (now : String) (f0 : Metadata) : Metadata :=
  exceptJoin (fixFileE lookup now f0)

/-! ## BatchConsistencyGuard: `ProcessListOfFiles` (lines 629-690)

A batch is a list of `Metadata`; a track whose metadata is empty is the
model of `not track or not track.metadata` and is skipped by the scan and
processing loops (but not by the rollback loop, as in the source). -/

/-- The body of the uniformity scan of `ProcessListOfFiles`: per track,
`if not name: name = value` and then `same &= (value == name)` — so empty
values seen before the first non-empty one never clear the flag, while an
empty (or different) value after it does. -/
def uniformGo : String → Bool → List String → String × Bool
  | name, same, [] => (name, same)
  | name, same, v :: rest =>
      let name2 := if name = "" then v else name
      uniformGo name2 (same && (v == name2)) rest

/-- The uniformity check on a list of field values, returning the captured
value and the all-same flag. -/
def uniformScan (vals : List String) : String × Bool :=
  uniformGo "" true vals

/-- The `album` pre-scan of the guard over the non-skipped tracks. -/
def preScanAlbum (objs : List Metadata) : String × Bool :=
  uniformScan ((objs.filter (fun t => !t.isEmpty)).map (fun t => mGet t "album"))

/-- The `albumartist` pre-scan of the guard. -/
def preScanAA (objs : List Metadata) : String × Bool :=
  uniformScan ((objs.filter (fun t => !t.isEmpty)).map (fun t => mGet t "albumartist"))

/-- The processing loop: `fixFile` on every non-skipped track. -/
def runFixes (lookup : ArtistDict) (now : String) (objs : List Metadata) :
    List Metadata :=
  objs.map (fun t => if t.isEmpty then t else fixFile lookup now t)

/-- Model of `ProcessListOfFiles` (lines 629-690): capture the two uniformity flags,
reconcile every track, re-scan, and roll back each field that was uniform
before but is no longer (the album-artist rollback also writes
`album artist`).  The rollback loop does not skip empty tracks. -/
def ProcessListOfFiles (lookup : ArtistDict) (now : String) (objs : List Metadata) :
    List Metadata :=
  let pre := preScanAlbum objs
  let preA := preScanAA objs
  let processed := runFixes lookup now objs
  let post := preScanAlbum processed
  let postA := preScanAA processed
  processed.map (fun t =>
    let t := if preA.2 && !postA.2 then
               mSet (mSet t "albumartist" preA.1) "album artist" preA.1
             else t
    if pre.2 && !post.2 then mSet t "album" pre.1 else t)

/-! ## DiscMerger: `CombineDiscs.callback` (classical_fixes.py lines 852-954)

Clusters carry their own metadata and a list of files.  The run result is
instrumented with the observable control-flow outcomes: whether validation
returned early (`vfail`), which disc ordinals were resolved by nobody and
silently skipped (`skipped`), and whether an exception was caught by the
outermost handler (`err`, with the state as mutated up to the raise). -/

/-- A file of a cluster. -/
structure PFile where
  metadata : Metadata
deriving DecidableEq

/-- A cluster. -/
structure PCluster where
  metadata : Metadata
  files : List PFile
deriving DecidableEq

/-- The validation loop (lines 865-882): every selected item must be a
nonempty cluster whose album matches `DISC_RE`, and the stripped prefixes
must agree; `albumName` keeps the source's falsy-test accumulation.  `none`
is the early `return` with nothing mutated. -/
def validateClusters : List PCluster → String → Option String
  | [], albumName => some albumName
  | c :: rest, albumName =>
      if c.files.isEmpty then none
      else
        match discMatch (mGet c.metadata "album") with
        | none => none
        | some g =>
            let p := pyStripSet ";,-: " g.1
            if albumName = "" then validateClusters rest p
            else if p ≠ albumName then none
            else validateClusters rest albumName

/-- The title scan of the merge loop (lines 894-906): for each cluster in
order, re-match the album and take `int(group(2))`; `.error` models the
`ValueError`/`AttributeError` from a missing number or a failed match.
Returns the index of the first cluster whose number equals `currdisc`. -/
def findByTitle (currdisc : Nat) : List PCluster → Nat → Except Unit (Option Nat)
  | [], _ => .ok none
  | c :: rest, i =>
      match discMatch (mGet c.metadata "album") with
      | none => .error ()
      | some g =>
          match pyInt g.2 with
          | none => .error ()
          | some n =>
              if n = (currdisc : Int) then .ok (some i) else findByTitle currdisc rest (i + 1)

/-- The per-cluster file scan of the fallback (lines 911-918): skip files
with empty metadata, parse each `discnumber`; `.error` models a raised
`ValueError`. -/
def fileHasDisc (currdisc : Nat) : List PFile → Except Unit Bool
  | [] => .ok false
  | f :: rest =>
      if f.metadata.isEmpty then fileHasDisc currdisc rest
      else
        match pyInt (mGet f.metadata "discnumber") with
        | none => .error ()
        | some n => if n = (currdisc : Int) then .ok true else fileHasDisc currdisc rest

/-- The fallback scan over clusters (lines 908-918). -/
def findByDisc (currdisc : Nat) : List PCluster → Nat → Except Unit (Option Nat)
  | [], _ => .ok none
  | c :: rest, i =>
      match fileHasDisc currdisc c.files with
      | .error () => .error ()
      | .ok true => .ok (some i)
      | .ok false => findByDisc currdisc rest (i + 1)

/-- Rewrite the files of the matched cluster (lines 920-942) and thread the
album-artist and date captured at disc 1. -/
def applyDisc (albumName : String) (total currdisc : Nat) (aa ad : String)
    (c : PCluster) : PCluster × String × String :=
  let aa2 := if currdisc = 1 then
               if mHas c.metadata "albumartist" then mGet c.metadata "albumartist"
               else if mHas c.metadata "album artist" then mGet c.metadata "album artist"
               else aa
             else aa
  let ad2 := if currdisc = 1 then
               match c.files.head? with
               | some f0 => if mHas f0.metadata "date" then mGet f0.metadata "date" else ad
               | none => ad
             else ad
  let files := c.files.map (fun f =>
    let m := f.metadata
    let m := mSet m "album" albumName
    let m := mSet m "albumartist" aa2
    let m := mSet m "album artist" aa2
    let m := mSet m "discnumber" (toString currdisc)
    let m := mSet m "totaldiscs" (toString total)
    let m := mSet m "date" ad2
    PFile.mk m)
  (PCluster.mk c.metadata files, aa2, ad2)

/-- The `while currdisc <= totalClusters` loop (lines 891-944), iterating
over the ordinals; `.error` carries the state and skip list at the raise
point (the outer handler then skips the cluster-metadata loop). -/
def mergeLoop (albumName : String) (total : Nat) :
    List Nat → List PCluster → String → String → List Nat →
    Except (List PCluster × List Nat) (List PCluster × String × List Nat)
  | [], st, aa, _, sk => .ok (st, aa, sk)
  | d :: ds, st, aa, ad, sk =>
      match findByTitle d st 0 with
      | .error () => .error (st, sk)
      | .ok r =>
          match (match r with
                 | some i => Except.ok (some i)
                 | none => findByDisc d st 0) with
          | .error () => .error (st, sk)
          | .ok none => mergeLoop albumName total ds st aa ad (sk ++ [d])
          | .ok (some i) =>
              match st.drop i with
              | [] => mergeLoop albumName total ds st aa ad (sk ++ [d])
              | c :: _ =>
                  let res := applyDisc albumName total d aa ad c
                  mergeLoop albumName total ds
                    (st.take i ++ res.1 :: st.drop (i + 1)) res.2.1 res.2.2 sk

/-- The instrumented outcome of one `CombineDiscs.callback` run. -/
structure CDResult where
  state : List PCluster
  skipped : List Nat
  err : Bool
  vfail : Bool
deriving DecidableEq

/-- The merge phase as entered after successful validation: the ordinal
loop, then the cluster-metadata rewrite (lines 947-950) — the latter only
when no exception interrupted the loop. -/
def combineMergeOutcome (albumName : String) (objs : List PCluster) : CDResult :=
  match mergeLoop albumName objs.length ((List.range objs.length).map (· + 1))
      objs "" "" [] with
  | .error es => ⟨es.1, es.2, true, false⟩
  | .ok os =>
      ⟨os.1.map (fun c =>
          PCluster.mk (mSet (mSet c.metadata "album" albumName) "albumartist" os.2.1)
            c.files),
       os.2.2, false, false⟩

/-- Model of `CombineDiscs.callback` (lines 855-954): validation followed by the
merge phase; a validation failure returns before anything is written. -/
def combineDiscsRun (objs : List PCluster) : CDResult :=
  match validateClusters objs "" with
  | none => ⟨objs, [], false, true⟩
  | some albumName => combineMergeOutcome albumName objs

/-! ## Reference definitions written from the spec's words, and concrete
example inputs used by the claim theorems below -/

/-- The upsert algorithm in the words of spec.md section 4.4: store the
record unconditionally under `makeKey(name)`; when the role is not
Orchestra, additionally store it under the last-name key and the initials
key, each only when that key is unoccupied or occupied by a record whose
display name is similar to the new name.  `ln`/`ini` are the (hypothesized)
results of `getLastName`/`getInitialsName`. -/
def upsertSpec (d : ArtistDict) (name sn swd role ep ln ini : String) : ArtistDict :=
  let key := makeKey name
  let d1 := assocSet d key (ArtistLookup.make key name sn swd role ep)
  if role = "Orchestra" then d1
  else
    [makeKey ln, makeKey ini].foldl (fun acc k2 =>
      match assocFind acc k2 with
      | none => assocSet acc k2 (ArtistLookup.make k2 name sn swd role ep)
      | some r0 =>
          if AreSimilar r0.name name then
            assocSet acc k2 (ArtistLookup.make k2 name sn swd role ep)
          else acc) d1

/-- The suffix set in the words of claim C7: jr, sr and the roman numerals
I-XI, each with or without a trailing period, case-insensitive. -/
def CLAIMED_SUFFIXES : List String :=
  ["jr", "jr.", "sr", "sr.", "i", "i.", "ii", "ii.", "iii", "iii.", "iv", "iv.",
   "v", "v.", "vi", "vi.", "vii", "vii.", "viii", "viii.", "ix", "ix.", "x", "x.",
   "xi", "xi."]

/-- Model of `reverseName` in the words of claim C7: split on spaces; when the last
token is a recognized suffix, the second-to-last token is the last name and
the suffix is kept appended after the comma-separated given names;
otherwise the last token is the last name; a single token is unchanged. -/
def reverseNameClaimed (s : String) : String :=
  let t := pyStrip s
  let parts := pySplitStr " " t
  if parts.length ≤ 1 then t
  else if pyLower (parts.getLastD "") ∈ CLAIMED_SUFFIXES then
    parts.getD (parts.length - 2) "" ++ ", " ++
      joinSep " " (parts.take (parts.length - 2)) ++ " " ++ parts.getLastD ""
  else parts.getLastD "" ++ ", " ++ joinSep " " (parts.take (parts.length - 1))

/-- The behavior of `reverseName` as amended: the recognized suffixes are exactly
`COMMON_SUFFIXES` (jr/sr with or without a period, roman numerals I-XI
without a period), a name of exactly two tokens whose last token is a
suffix is returned unchanged (after trimming), and otherwise the claim's
rule applies. -/
def reverseNameAmended (s : String) : String :=
  let t := pyStrip s
  let parts := pySplitStr " " t
  if parts.length ≤ 1 then t
  else if pyLower (parts.getLastD "") ∈ COMMON_SUFFIXES then
    if parts.length = 2 then t
    else
      parts.getD (parts.length - 2) "" ++ ", " ++
        joinSep " " (parts.take (parts.length - 2)) ++ " " ++ parts.getLastD ""
  else parts.getLastD "" ++ ", " ++ joinSep " " (parts.take (parts.length - 1))

/-- A record whose `conductor` tag is present but empty (claim C9). -/
def recEmptyCond : Metadata :=
  [("conductor", ""), ("album", "X [Y]"), ("title", "No. 5")]

/-- The state in which reconciliation of `recEmptyCond` is interrupted by
the `IndexError` of the bracket-cleanup step. -/
def recEmptyCondOut : Metadata :=
  [("conductor", ""), ("album", "X [Y]"), ("title", "No. 5"),
   ("albumartist", ""), ("artist", ""), ("album artist", "")]

/-- A record whose single-token conductor name appears bracketed in the
album title (guard witness, claim C2). -/
def wQRec1 : Metadata :=
  [("album", "[Q] A"), ("title", "T"), ("artist", "A"), ("albumartist", "A"),
   ("conductor", "Q")]

/-- A companion record of the same album without a conductor. -/
def wQRec2 : Metadata :=
  [("album", "[Q] A"), ("title", "T"), ("artist", "A"), ("albumartist", "A")]

/-- The witness group for the amended guard claim: both records share the
album `"[Q] A"`; reconciliation strips the bracket only on the first. -/
def wQGroup : List Metadata :=
  [wQRec1, wQRec2]

/-- First record of the guard counterexample group: conductor `Boehm`,
album `"[Boehm]"` — reconciliation empties this record's album. -/
def cexBoehm1 : Metadata :=
  [("album", "[Boehm]"), ("title", "T"), ("artist", "A"), ("albumartist", "A"),
   ("conductor", "Boehm")]

/-- Companion records without a conductor: their album is left alone. -/
def cexBoehm2 : Metadata :=
  [("album", "[Boehm]"), ("title", "T"), ("artist", "A"), ("albumartist", "A")]

/-- The counterexample group for claim C2: albums identical before
reconciliation, `["", "[Boehm]", "[Boehm]"]` after — which the guard's
uniformity check does not classify as divergent. -/
def cexGroup : List Metadata :=
  [cexBoehm1, cexBoehm2, cexBoehm2]

/-- A registry holding Karajan as a conductor (role-inference witness). -/
def karajanDict : ArtistDict :=
  [(makeKey "Herbert von Karajan",
    ArtistLookup.make "herbertvonkarajan" "Herbert von Karajan"
      "Karajan, Herbert von" "" "Conductor" "")]

/-- Disc-merge counterexample, first cluster: `Album Disc 1`. -/
def cexClusterA : PCluster :=
  ⟨[("album", "Album Disc 1"), ("albumartist", "AA")],
   [⟨[("album", "Album Disc 1"), ("discnumber", "1")]⟩]⟩

/-- Disc-merge counterexample, second cluster: `Album Disc 3` — ordinal 2
is resolved by nobody. -/
def cexClusterB : PCluster :=
  ⟨[("album", "Album Disc 3"), ("albumartist", "BB")],
   [⟨[("album", "Album Disc 3"), ("discnumber", "3")]⟩]⟩

/-- The run of the disc merge on the counterexample selection. -/
def cexRun : CDResult :=
  combineDiscsRun [cexClusterA, cexClusterB]

/-- A selection failing disc-merge validation: no Disc/Disk token. -/
def vfailCluster : PCluster :=
  ⟨[("album", "Hello")], [⟨[("album", "Hello")]⟩]⟩

/-! ## Map lemmas -/

theorem assocFind_assocSet_self {β : Type} (l : List (String × β)) (k : String) (v : β) :
    assocFind (assocSet l k v) k = some v := by
  induction l with
  | nil => simp [assocSet, assocFind]
  | cons p rest ih =>
      by_cases h : p.1 = k
      · simp [assocSet, assocFind, h]
      · simp [assocSet, assocFind, h, ih]

theorem assocFind_assocSet_ne {β : Type} (l : List (String × β)) {k k2 : String} (v : β)
    (h : k2 ≠ k) : assocFind (assocSet l k v) k2 = assocFind l k2 := by
  induction l with
  | nil => simp [assocSet, assocFind, Ne.symm h]
  | cons p rest ih =>
      by_cases hp : p.1 = k
      · subst hp
        simp [assocSet, assocFind, Ne.symm h, h]
      · by_cases hq : p.1 = k2
        · simp [assocSet, assocFind, hp, hq, h]
        · simp [assocSet, assocFind, hp, hq, ih]

theorem mGet_mSet_self (f : Metadata) (k v : String) : mGet (mSet f k v) k = v := by
  simp [mGet, mSet, assocFind_assocSet_self]

theorem mGet_mSet_ne (f : Metadata) {k k2 : String} (v : String) (h : k2 ≠ k) :
    mGet (mSet f k v) k2 = mGet f k2 := by
  simp [mGet, mSet, assocFind_assocSet_ne _ _ h]

theorem mHas_mSet_ne (f : Metadata) {k k2 : String} (v : String) (h : k2 ≠ k) :
    mHas (mSet f k v) k2 = mHas f k2 := by
  simp [mHas, mSet, assocFind_assocSet_ne _ _ h]

theorem mHas_of_mGet_ne (f : Metadata) (k : String) (h : mGet f k ≠ "") :
    mHas f k = true := by
  unfold mGet mHas at *
  cases hf : assocFind f k with
  | none => rw [hf] at h; simp at h
  | some v => simp

theorem fieldEmpty_false_of_ne (f : Metadata) (k : String) (h : mGet f k ≠ "") :
    fieldEmpty f k = false := by
  unfold fieldEmpty
  rw [mHas_of_mGet_ne f k h]
  simp [h]

/-! ## Helper lemmas for the claim theorems -/

theorem removeChain_eq_filter (l : List Char) :
    removeChar ',' (removeChar (Char.ofNat 39) (removeChar '.' (removeChar '/'
      (removeChar ' ' (removeChar '-' l))))) =
    l.filter (fun c => !(['-', ' ', '/', '.', Char.ofNat 39, ','].contains c)) := by
  unfold removeChar
  simp only [List.filter_filter]
  apply List.filter_congr
  intro c _
  by_cases h1 : c = '-' <;> by_cases h2 : c = ' ' <;> by_cases h3 : c = '/' <;>
    by_cases h4 : c = '.' <;> by_cases h5 : c = Char.ofNat 39 <;>
    by_cases h6 : c = ',' <;> simp_all

theorem makeKey_eq_spec (s : String) : makeKey s = makeKeySpec s := by
  simp only [makeKey, makeKeySpec]
  rw [removeChain_eq_filter]

theorem uniformGo_false (l : List String) (name : String) :
    (uniformGo name false l).2 = false := by
  induction l generalizing name with
  | nil => rfl
  | cons v rest ih => simp [uniformGo, ih]

theorem uniformGo_break_mem (l : List String) (name : String) (same : Bool)
    (hn : name ≠ "") (hm : "" ∈ l) : (uniformGo name same l).2 = false := by
  induction l generalizing name same with
  | nil => cases hm
  | cons v rest ih =>
      have hname2 : (if name = "" then v else name) = name := by simp [hn]
      rcases List.mem_cons.mp hm with hv | hrest
      · subst hv
        simp only [uniformGo, hname2]
        have hb : (("" : String) == name) = false := by
          cases hb : (("" : String) == name) with
          | false => rfl
          | true => exact absurd (eq_of_beq hb).symm hn
        rw [hb, Bool.and_false]
        exact uniformGo_false rest name
      · simp only [uniformGo, hname2]
        exact ih name _ hn hrest

theorem uniformGo_const (m : Nat) (X : String) (hX : X ≠ "") :
    uniformGo X true (List.replicate m X) = (X, true) := by
  induction m with
  | zero => rfl
  | succ m ih =>
      simp only [List.replicate, uniformGo]
      have : (if X = "" then X else X) = X := by simp [hX]
      rw [this]
      simpa using ih

/-! ## Claim theorems -/

/-- C5: `makeKey` equals the spec's reference normalization (NFD
decomposition, combining-mark removal, one-pass removal of `- ' . , /` and
spaces, lower-casing); hence two display strings collide iff they are equal
under that normalization; the stated accent/case/punctuation variants
collide; the empty input yields the empty key. -/
theorem makeKey_normalization :
    (∀ s : String, makeKey s = makeKeySpec s) ∧
    (∀ s t : String, makeKey s = makeKey t ↔ makeKeySpec s = makeKeySpec t) ∧
    makeKey "Karl Böhm" = makeKey "karl bohm" ∧
    makeKey "karl bohm" = makeKey "Karl-Böhm" ∧
    makeKey "Karl Böhm" = "karlbohm" ∧
    makeKey "" = "" := by
  refine ⟨makeKey_eq_spec, ?_, by decide, by decide, by decide, by decide⟩
  intro s t
  rw [makeKey_eq_spec s, makeKey_eq_spec t]

/-- C7 counterexample: the last token `II.` (a roman numeral with a
trailing period) is not in the source's suffix list, so the source treats
it as the last name, and a two-token name ending in a recognized suffix is
returned unchanged — both against the claim's reading. -/
theorem reverseName_cex :
    reverseName "John Paul II." = "II., John Paul" ∧
    reverseNameClaimed "John Paul II." = "Paul, John II." ∧
    reverseName "John Paul II." ≠ reverseNameClaimed "John Paul II." ∧
    reverseName "Williams Jr." = "Williams Jr." ∧
    reverseName "Williams Jr." ≠ reverseNameClaimed "Williams Jr." := by
  refine ⟨by decide, by decide, by decide, by decide, by decide⟩

/-- C7 as amended: the recognized suffixes are jr/sr with or without a
period and the roman numerals I-XI without a period; a two-token name
ending in a suffix is returned unchanged; otherwise the claim's splitting
rule applies; the claim's three examples hold. -/
theorem reverseName_amended_correct :
    (∀ s : String, reverseName s = reverseNameAmended s) ∧
    reverseName "Johann Sebastian Bach" = "Bach, Johann Sebastian" ∧
    reverseName "John Williams Jr." = "Williams, John Jr." ∧
    reverseName "Sting" = "Sting" := by
  refine ⟨?_, by decide, by decide, by decide⟩
  intro s
  simp only [reverseName, reverseNameAmended]
  by_cases h1 : (pySplitStr " " (pyStrip s)).length > 1
  · by_cases h2 : pyLower ((pySplitStr " " (pyStrip s)).getLastD "") ∈ COMMON_SUFFIXES
    · by_cases h3 : (pySplitStr " " (pyStrip s)).length > 2
      · rw [if_pos h1, if_pos h2, if_pos h3,
            if_neg (by omega : ¬ (pySplitStr " " (pyStrip s)).length ≤ 1), if_pos h2,
            if_neg (by omega : ¬ (pySplitStr " " (pyStrip s)).length = 2)]
      · rw [if_pos h1, if_pos h2, if_neg h3,
            if_neg (by omega : ¬ (pySplitStr " " (pyStrip s)).length ≤ 1), if_pos h2,
            if_pos (by omega : (pySplitStr " " (pyStrip s)).length = 2)]
    · rw [if_pos h1, if_neg h2,
          if_neg (by omega : ¬ (pySplitStr " " (pyStrip s)).length ≤ 1), if_neg h2]
  · rw [if_neg h1, if_pos (by omega : (pySplitStr " " (pyStrip s)).length ≤ 1)]

/-- C8: the ordered rule table turns the title `Symphony No. 9 Op.125`
into exactly `Symphony #9 Op. 125`, and the per-rule loop of `fixFile`
acts on the `title` field exactly as `applyTextRules`. -/
theorem textRules_example :
    applyTextRules "Symphony No. 9 Op.125" = "Symphony #9 Op. 125" ∧
    ∀ f : Metadata, mGet (textRules.foldl regexStep f) "title" =
      applyTextRules (mGet f "title") := by
  constructor
  · decide
  · intro f
    show mGet (textRules.foldl regexStep f) "title" =
      textRules.foldl (fun acc rule => reSub rule.1 rule.2 acc) (mGet f "title")
    generalize textRules = rules
    induction rules generalizing f with
    | nil => rfl
    | cons r rest ih =>
        simp only [List.foldl]
        rw [ih]
        congr 1
        simp only [regexStep]
        split_ifs with h1 h2 h2
        · rw [mGet_mSet_ne _ _ (by decide : ("title" : String) ≠ "album"),
            mGet_mSet_self]
        · rw [mGet_mSet_self]
        · have h1' : mGet f "title" = reSub r.1 r.2 (mGet f "title") := by
            simpa using h1
          rw [mGet_mSet_ne _ _ (by decide : ("title" : String) ≠ "album")]
          exact h1'
        · have h1' : mGet f "title" = reSub r.1 r.2 (mGet f "title") := by
            simpa using h1
          exact h1'

/-- C10: the guard's uniformity scan classifies a group whose values are
zero or more empty strings followed by copies of one non-empty value `X` as
uniform with captured value `X`; any empty value occurring after a
non-empty one makes the scan report non-uniform.  Both the pre-check and
the post-check of `ProcessListOfFiles` are `uniformScan` applied to the
`album` (resp. `albumartist`) values of the non-skipped tracks. -/
theorem uniformity_leading_empties :
    (∀ (k m : Nat) (X : String), X ≠ "" → 1 ≤ m →
        uniformScan (List.replicate k "" ++ List.replicate m X) = (X, true)) ∧
    (∀ (vals : List String) (i j : Nat), i < j → j < vals.length →
        vals.getD i "" ≠ "" → vals.getD j "" = "" →
        (uniformScan vals).2 = false) := by
  constructor
  · intro k m X hX hm
    unfold uniformScan
    induction k with
    | zero =>
        obtain ⟨m', rfl⟩ : ∃ m', m = m' + 1 := ⟨m - 1, by omega⟩
        have h2 : uniformGo "" true (List.replicate 0 "" ++ List.replicate (m' + 1) X) =
            uniformGo X true (List.replicate m' X) := by
          simp [List.replicate, uniformGo]
        rw [h2, uniformGo_const m' X hX]
    | succ k ih =>
        have h2 : uniformGo "" true (List.replicate (k + 1) "" ++ List.replicate m X) =
            uniformGo "" true (List.replicate k "" ++ List.replicate m X) := by
          simp [List.replicate, uniformGo]
        rw [h2]
        exact ih
  · intro vals i j hij hjlen hi hj
    unfold uniformScan
    have main : ∀ (l : List String) (name : String) (same : Bool) (i j : Nat),
        i < j → j < l.length → l.getD i "" ≠ "" → l.getD j "" = "" →
        (uniformGo name same l).2 = false := by
      intro l
      induction l with
      | nil => intro name same i j _ h2 _ _; simp at h2
      | cons v rest ih =>
          intro name same i j h1 h2 h3 h4
          match i with
          | 0 =>
              have hv : v ≠ "" := by simpa using h3
              have hname2 : (if name = "" then v else name) ≠ "" := by
                by_cases hn : name = "" <;> simp [hn, hv]
              have hmem : ("" : String) ∈ rest := by
                obtain ⟨j', rfl⟩ : ∃ j', j = j' + 1 := ⟨j - 1, by omega⟩
                have hjl : j' < rest.length := by simpa using h2
                have : rest.getD j' "" = "" := by simpa using h4
                rw [List.getD_eq_getElem rest "" hjl] at this
                rw [← this]
                exact List.getElem_mem hjl
              simp only [uniformGo]
              exact uniformGo_break_mem rest _ _ hname2 hmem
          | i' + 1 =>
              obtain ⟨j', rfl⟩ : ∃ j', j = j' + 1 := ⟨j - 1, by omega⟩
              simp only [uniformGo]
              exact ih _ _ i' j' (by omega) (by simpa using h2)
                (by simpa using h3) (by simpa using h4)
    exact main vals "" true i j hij hjlen hi hj

/-- Witness for `uniformity_leading_empties` at a concrete group: one
leading empty album followed by two copies of `X` is classified uniform
with value `X`, and an empty value after a non-empty one is not. -/
theorem uniformity_leading_empties_witness :
    uniformScan (List.replicate 1 "" ++ List.replicate 2 "X") = ("X", true) ∧
    (uniformScan ["X", ""]).2 = false := by
  constructor
  · exact uniformity_leading_empties.1 1 2 "X" (by decide) (by decide)
  · exact uniformity_leading_empties.2 ["X", ""] 0 1 (by decide) (by decide)
      (by decide) (by decide)

/-- Reading through a conditional single-key write at another key. -/
theorem mGet_condSet_ne (b : Bool) (f : Metadata) (k v : String) {k2 : String}
    (h : k2 ≠ k) : mGet (if b then mSet f k v else f) k2 = mGet f k2 := by
  cases b <;> simp [mGet_mSet_ne _ _ h]

/-- A single-key write at another key does not change emptiness. -/
theorem fieldEmpty_mSet_ne (f : Metadata) {k k2 : String} (v : String) (h : k2 ≠ k) :
    fieldEmpty (mSet f k v) k2 = fieldEmpty f k2 := by
  unfold fieldEmpty
  rw [mGet_mSet_ne _ _ h, mHas_mSet_ne _ _ h]

/-- C9 counterexample: on the whitespace-only input `" "`, `reverseName`
returns the stripped — empty — string, not the input unchanged. -/
theorem reverseName_whitespace_cex :
    reverseName " " = "" ∧ reverseName " " ≠ " " := by
  exact ⟨by decide, by decide⟩

/-- C9 as amended: `getLastName` and `getInitialsName` raise an index
error on empty or whitespace-only input, while `reverseName` returns the
stripped input — hence the empty string there (unchanged only for the
exactly-empty input).  Consequently a record whose `conductor` tag is
present but empty makes the bracket-cleanup step of reconciliation raise
(for any registry), the per-record handler catches it, and the remaining
steps are skipped: the title keeps its unrewritten `No. 5`, and neither
`genre` nor the timestamp is ever written. -/
theorem nameTransforms_partiality :
    (∀ s : String, pyStrip s = "" →
        getLastName s = none ∧ getInitialsName s = none ∧ reverseName s = "") ∧
    fixFileE [] "2019-01-01 00:00:00" recEmptyCond = .error recEmptyCondOut ∧
    mGet recEmptyCondOut "title" = "No. 5" ∧
    mHas recEmptyCondOut "genre" = false ∧
    mHas recEmptyCondOut "classicalfixesdate" = false ∧
    fixFile [] "2019-01-01 00:00:00" recEmptyCond = recEmptyCondOut := by
  have hrev : ∀ s : String, pyStrip s = "" → reverseName s = "" := by
    intro s h
    simp only [reverseName, h]
    rfl
  refine ⟨?_, rfl, by decide, by decide, by decide, rfl⟩
  intro s h
  refine ⟨?_, ?_, hrev s h⟩
  · simp only [getLastName, hrev s h]
    rfl
  · simp only [getInitialsName, h]
    rfl

/-- Witness for `nameTransforms_partiality` at the concrete whitespace-only
input `"  "`. -/
theorem nameTransforms_partiality_witness :
    getLastName "  " = none ∧ getInitialsName "  " = none ∧ reverseName "  " = "" :=
  nameTransforms_partiality.1 "  " (by decide)

/-- C3: per-record role inference.  The phase is the fold of
`roleInferOne` over the artist list and then the album-artist list (so the
artist list is consulted first and, because only empty fields are filled,
takes precedence); a found record whose role is Orchestra / Conductor /
Composer fills the corresponding field with its display name when that
field is absent or empty, a composer fill also setting `composer view`,
`composersort` and `epoque` from the record; and a field that is already
non-empty is never overwritten by the phase. -/
theorem roleInference_correct :
    (∀ (lookup : ArtistDict) (arts aarts : List String) (f : Metadata),
        aarts.foldl (roleInferOne lookup) (arts.foldl (roleInferOne lookup) f) =
          (arts ++ aarts).foldl (roleInferOne lookup) f) ∧
    (∀ (lookup : ArtistDict) (f : Metadata) (name : String) (r : ArtistLookup),
        assocFind lookup (makeKey name) = some r →
        (r.primaryrole = "Orchestra" → fieldEmpty f "orchestra" = true →
            mGet (roleInferOne lookup f name) "orchestra" = r.name) ∧
        (r.primaryrole = "Conductor" → fieldEmpty f "conductor" = true →
            mGet (roleInferOne lookup f name) "conductor" = r.name) ∧
        (r.primaryrole = "Composer" → fieldEmpty f "composer" = true →
            mGet (roleInferOne lookup f name) "composer" = r.name ∧
            mGet (roleInferOne lookup f name) "composer view" = r.sortorderwithdates ∧
            mGet (roleInferOne lookup f name) "composersort" = r.sortorder ∧
            mGet (roleInferOne lookup f name) "epoque" = r.primaryepoque)) ∧
    (∀ (lookup : ArtistDict) (names : List String) (f : Metadata) (k : String),
        k = "orchestra" ∨ k = "conductor" ∨ k = "composer" →
        mGet f k ≠ "" →
        mGet (names.foldl (roleInferOne lookup) f) k = mGet f k) := by
  have preserve : ∀ (lookup : ArtistDict) (f : Metadata) (name k : String),
      k = "orchestra" ∨ k = "conductor" ∨ k = "composer" →
      mGet f k ≠ "" → mGet (roleInferOne lookup f name) k = mGet f k := by
    intro lookup f name k hk h
    have e1 : fieldEmpty f k = false := fieldEmpty_false_of_ne f k h
    cases hfind : assocFind lookup (makeKey name) with
    | none => simp only [roleInferOne, hfind]
    | some r =>
        simp only [roleInferOne, hfind]
        by_cases h1 : (r.primaryrole == "Orchestra" && fieldEmpty f "orchestra") = true
        case pos =>
          rw [if_pos h1]
          rcases hk with rfl | rfl | rfl
          · rw [e1, Bool.and_false] at h1
            exact absurd h1 (by simp)
          · by_cases h2 : (r.primaryrole == "Conductor" &&
                fieldEmpty (mSet f "orchestra" r.name) "conductor") = true
            · rw [fieldEmpty_mSet_ne f _ (by decide), e1, Bool.and_false] at h2
              exact absurd h2 (by simp)
            · rw [if_neg h2]
              by_cases h3 : (r.primaryrole == "Composer" &&
                  fieldEmpty (mSet f "orchestra" r.name) "composer") = true
              · rw [if_pos h3,
                  mGet_mSet_ne _ _ (by decide), mGet_mSet_ne _ _ (by decide),
                  mGet_mSet_ne _ _ (by decide), mGet_mSet_ne _ _ (by decide),
                  mGet_mSet_ne _ _ (by decide)]
              · rw [if_neg h3, mGet_mSet_ne _ _ (by decide)]
          · by_cases h2 : (r.primaryrole == "Conductor" &&
                fieldEmpty (mSet f "orchestra" r.name) "conductor") = true
            · rw [Bool.and_eq_true] at h1 h2
              have hO : r.primaryrole = "Orchestra" := eq_of_beq h1.1
              have hC : r.primaryrole = "Conductor" := eq_of_beq h2.1
              rw [hO] at hC
              exact absurd hC (by decide)
            · rw [if_neg h2]
              by_cases h3 : (r.primaryrole == "Composer" &&
                  fieldEmpty (mSet f "orchestra" r.name) "composer") = true
              · rw [Bool.and_eq_true] at h1 h3
                have hO : r.primaryrole = "Orchestra" := eq_of_beq h1.1
                have hC : r.primaryrole = "Composer" := eq_of_beq h3.1
                rw [hO] at hC
                exact absurd hC (by decide)
              · rw [if_neg h3, mGet_mSet_ne _ _ (by decide)]
        case neg =>
          rw [if_neg h1]
          rcases hk with rfl | rfl | rfl
          · by_cases h2 : (r.primaryrole == "Conductor" && fieldEmpty f "conductor") = true
            · rw [if_pos h2]
              by_cases h3 : (r.primaryrole == "Composer" &&
                  fieldEmpty (mSet f "conductor" r.name) "composer") = true
              · rw [if_pos h3,
                  mGet_mSet_ne _ _ (by decide), mGet_mSet_ne _ _ (by decide),
                  mGet_mSet_ne _ _ (by decide), mGet_mSet_ne _ _ (by decide),
                  mGet_mSet_ne _ _ (by decide)]
              · rw [if_neg h3, mGet_mSet_ne _ _ (by decide)]
            · rw [if_neg h2]
              by_cases h3 : (r.primaryrole == "Composer" && fieldEmpty f "composer") = true
              · rw [if_pos h3,
                  mGet_mSet_ne _ _ (by decide), mGet_mSet_ne _ _ (by decide),
                  mGet_mSet_ne _ _ (by decide), mGet_mSet_ne _ _ (by decide)]
              · rw [if_neg h3]
          · by_cases h2 : (r.primaryrole == "Conductor" && fieldEmpty f "conductor") = true
            · rw [e1, Bool.and_false] at h2
              exact absurd h2 (by simp)
            · rw [if_neg h2]
              by_cases h3 : (r.primaryrole == "Composer" && fieldEmpty f "composer") = true
              · rw [if_pos h3,
                  mGet_mSet_ne _ _ (by decide), mGet_mSet_ne _ _ (by decide),
                  mGet_mSet_ne _ _ (by decide), mGet_mSet_ne _ _ (by decide)]
              · rw [if_neg h3]
          · by_cases h2 : (r.primaryrole == "Conductor" && fieldEmpty f "conductor") = true
            · rw [if_pos h2]
              by_cases h3 : (r.primaryrole == "Composer" &&
                  fieldEmpty (mSet f "conductor" r.name) "composer") = true
              · rw [Bool.and_eq_true] at h2 h3
                have hO : r.primaryrole = "Conductor" := eq_of_beq h2.1
                have hC : r.primaryrole = "Composer" := eq_of_beq h3.1
                rw [hO] at hC
                exact absurd hC (by decide)
              · rw [if_neg h3, mGet_mSet_ne _ _ (by decide)]
            · rw [if_neg h2]
              by_cases h3 : (r.primaryrole == "Composer" && fieldEmpty f "composer") = true
              · rw [e1, Bool.and_false] at h3
                exact absurd h3 (by simp)
              · rw [if_neg h3]
  refine ⟨?_, ?_, ?_⟩
  · intro lookup arts aarts f
    rw [List.foldl_append]
  · intro lookup f name r hr
    refine ⟨?_, ?_, ?_⟩ <;> intro hrole hemp <;> simp only [roleInferOne, hr]
    · rw [hrole]
      simp only [show (("Orchestra" : String) == "Orchestra") = true by decide,
        show (("Orchestra" : String) == "Conductor") = false by decide,
        show (("Orchestra" : String) == "Composer") = false by decide,
        hemp, Bool.true_and, Bool.false_and, Bool.false_eq_true, if_false, if_true]
      rw [mGet_mSet_self]
    · rw [hrole]
      simp only [show (("Conductor" : String) == "Orchestra") = false by decide,
        show (("Conductor" : String) == "Conductor") = true by decide,
        show (("Conductor" : String) == "Composer") = false by decide,
        hemp, Bool.true_and, Bool.false_and, Bool.false_eq_true, if_false, if_true]
      rw [mGet_mSet_self]
    · rw [hrole]
      simp only [show (("Composer" : String) == "Orchestra") = false by decide,
        show (("Composer" : String) == "Conductor") = false by decide,
        show (("Composer" : String) == "Composer") = true by decide,
        hemp, Bool.true_and, Bool.false_and, Bool.false_eq_true, if_false, if_true]
      refine ⟨?_, ?_, ?_, ?_⟩
      · rw [mGet_mSet_ne _ _ (by decide), mGet_mSet_ne _ _ (by decide),
          mGet_mSet_ne _ _ (by decide), mGet_mSet_self]
      · rw [mGet_mSet_ne _ _ (by decide), mGet_mSet_ne _ _ (by decide),
          mGet_mSet_self]
      · rw [mGet_mSet_ne _ _ (by decide), mGet_mSet_self]
      · rw [mGet_mSet_self]
  · intro lookup names f k hk h
    induction names generalizing f with
    | nil => rfl
    | cons n rest ih =>
        simp only [List.foldl]
        rw [ih (roleInferOne lookup f n) (by rw [preserve lookup f n k hk h]; exact h),
          preserve lookup f n k hk h]

/-- Witness for `roleInference_correct` at a concrete registry and record:
with Karajan registered as a Conductor and an empty `conductor` field, the
phase fills `conductor` with the canonical display name. -/
theorem roleInference_correct_witness :
    mGet (roleInferOne karajanDict [] "Herbert von Karajan") "conductor" =
      "Herbert von Karajan" := by
  have h := (roleInference_correct.2.1 karajanDict [] "Herbert von Karajan"
    (ArtistLookup.make "herbertvonkarajan" "Herbert von Karajan"
      "Karajan, Herbert von" "" "Conductor" "") (by decide)).2.1
  exact h (by decide) (by decide)

/-- A bracket-cleanup step that raises leaves the metadata untouched. -/
theorem bracketStep_error_eq (key : String) (f m : Metadata)
    (h : bracketStep key f = .error m) : m = f := by
  unfold bracketStep at h
  by_cases hk : mHas f key = true
  · rw [if_pos hk] at h
    cases hg : getLastName (mGet f key) with
    | none => rw [hg] at h; simp at h; exact h.symm
    | some ln => rw [hg] at h; simp at h
  · rw [if_neg hk] at h
    simp at h

/-- A successful bracket-cleanup step writes only `album`. -/
theorem bracketStep_ok_mGet (key : String) (f m : Metadata) (k : String)
    (hk : k ≠ "album") (h : bracketStep key f = .ok m) : mGet m k = mGet f k := by
  unfold bracketStep at h
  by_cases hkk : mHas f key = true
  · rw [if_pos hkk] at h
    cases hg : getLastName (mGet f key) with
    | none => rw [hg] at h; simp at h
    | some ln =>
        rw [hg] at h
        simp at h
        rw [← h, mGet_mSet_ne _ _ hk]
  · rw [if_neg hkk] at h
    simp at h
    rw [← h]

/-- One rule pass writes only `title` and `album`. -/
theorem regexStep_mGet (f : Metadata) (rule : Rgx × List Tmpl) (k : String)
    (h1 : k ≠ "title") (h2 : k ≠ "album") : mGet (regexStep f rule) k = mGet f k := by
  simp only [regexStep]
  split_ifs
  · rw [mGet_mSet_ne _ _ h2, mGet_mSet_ne _ _ h1]
  · rw [mGet_mSet_ne _ _ h1]
  · rw [mGet_mSet_ne _ _ h2]
  · rfl

/-- The whole rule loop writes only `title` and `album`. -/
theorem regexFold_mGet (rules : List (Rgx × List Tmpl)) (f : Metadata) (k : String)
    (h1 : k ≠ "title") (h2 : k ≠ "album") :
    mGet (rules.foldl regexStep f) k = mGet f k := by
  induction rules generalizing f with
  | nil => rfl
  | cons r rest ih =>
      simp only [List.foldl]
      rw [ih (regexStep f r), regexStep_mGet f r k h1 h2]

/-- The tail of `fixFile` (rules, genre, timestamp) writes only `title`,
`album`, `genre`, `origgenre` and `classicalfixesdate`. -/
theorem fixFilePost_mGet (now : String) (f : Metadata) (k : String)
    (h1 : k ≠ "title") (h2 : k ≠ "album") (h3 : k ≠ "genre") (h4 : k ≠ "origgenre")
    (h5 : k ≠ "classicalfixesdate") : mGet (fixFilePost now f) k = mGet f k := by
  simp only [fixFilePost]
  rw [mGet_mSet_ne _ _ h5]
  split_ifs
  · rw [mGet_mSet_ne _ _ h3, mGet_mSet_ne _ _ h4, regexFold_mGet _ _ _ h1 h2]
  · rw [regexFold_mGet _ _ _ h1 h2]
  · rw [regexFold_mGet _ _ _ h1 h2]
  · rw [mGet_mSet_ne _ _ h3, regexFold_mGet _ _ _ h1 h2]

/-- The raise-capable tail preserves the album-artist mirror equality. -/
theorem bracketChain_mirror (now : String) (f2 : Metadata)
    (base : mGet f2 "album artist" = mGet f2 "albumartist") :
    mGet (exceptJoin (bracketChain now f2)) "album artist" =
      mGet (exceptJoin (bracketChain now f2)) "albumartist" := by
  unfold bracketChain
  cases hb1 : bracketStep "conductor" f2 with
  | error m =>
      simp only [exceptJoin]
      rw [bracketStep_error_eq _ _ _ hb1]
      exact base
  | ok f3 =>
      have base3 : mGet f3 "album artist" = mGet f3 "albumartist" := by
        rw [bracketStep_ok_mGet _ _ _ _ (by decide) hb1,
          bracketStep_ok_mGet _ _ _ _ (by decide) hb1]
        exact base
      cases hb2 : bracketStep "composer" f3 with
      | error m =>
          simp only [hb2, exceptJoin]
          rw [bracketStep_error_eq _ _ _ hb2]
          exact base3
      | ok f4 =>
          simp only [hb2, exceptJoin]
          rw [fixFilePost_mGet now f4 _ (by decide) (by decide) (by decide) (by decide)
              (by decide),
            fixFilePost_mGet now f4 _ (by decide) (by decide) (by decide) (by decide)
              (by decide),
            bracketStep_ok_mGet _ _ _ _ (by decide) hb2,
            bracketStep_ok_mGet _ _ _ _ (by decide) hb2]
          exact base3

theorem fixFile_mirror (lookup : ArtistDict) (now : String) (f : Metadata) :
    mGet (fixFile lookup now f) "album artist" =
      mGet (fixFile lookup now f) "albumartist" := by
  have hsplit : fixFile lookup now f =
      exceptJoin (bracketChain now (mSet (fixFilePre lookup f) "album artist"
        (mGet (fixFilePre lookup f) "albumartist"))) := rfl
  rw [hsplit]
  exact bracketChain_mirror now _
    (by rw [mGet_mSet_self, mGet_mSet_ne _ _ (by decide)])

/-- C6: after per-record reconciliation the `album artist` field equals
`albumartist` (the mirror assignment is the last write to either field,
and an interrupting exception can only occur after it), and every record
leaving the batch guard — whose rollback writes the restored value to both
fields — satisfies the same equality. -/
theorem albumartist_duplicate_invariant :
    (∀ (lookup : ArtistDict) (now : String) (f : Metadata),
        mGet (fixFile lookup now f) "album artist" =
          mGet (fixFile lookup now f) "albumartist") ∧
    (∀ (lookup : ArtistDict) (now : String) (objs : List Metadata),
        ∀ t ∈ ProcessListOfFiles lookup now objs,
          mGet t "album artist" = mGet t "albumartist") := by
  refine ⟨fixFile_mirror, ?_⟩
  intro lookup now objs t ht
  simp only [ProcessListOfFiles] at ht
  rcases List.mem_map.mp ht with ⟨t0, ht0, rfl⟩
  have base : mGet t0 "album artist" = mGet t0 "albumartist" := by
    simp only [runFixes] at ht0
    rcases List.mem_map.mp ht0 with ⟨t1, _, rfl⟩
    by_cases he : t1.isEmpty = true
    · rw [if_pos he]
      have : t1 = [] := by
        cases t1 with
        | nil => rfl
        | cons a l => simp [List.isEmpty] at he
      subst this
      rfl
    · rw [if_neg he]
      exact fixFile_mirror lookup now t1
  have inner : mGet (if ((preScanAA objs).2 &&
        !(preScanAA (runFixes lookup now objs)).2) = true then
          mSet (mSet t0 "albumartist" (preScanAA objs).1) "album artist"
            (preScanAA objs).1
        else t0) "album artist" =
      mGet (if ((preScanAA objs).2 &&
        !(preScanAA (runFixes lookup now objs)).2) = true then
          mSet (mSet t0 "albumartist" (preScanAA objs).1) "album artist"
            (preScanAA objs).1
        else t0) "albumartist" := by
    by_cases c1 : ((preScanAA objs).2 &&
        !(preScanAA (runFixes lookup now objs)).2) = true
    · rw [if_pos c1, mGet_mSet_self,
        mGet_mSet_ne _ _ (by decide : ("albumartist" : String) ≠ "album artist"),
        mGet_mSet_self]
    · rw [if_neg c1]
      exact base
  by_cases c2 : ((preScanAlbum objs).2 &&
      !(preScanAlbum (runFixes lookup now objs)).2) = true
  · rw [if_pos c2,
      mGet_mSet_ne _ _ (by decide : ("album artist" : String) ≠ "album"),
      mGet_mSet_ne _ _ (by decide : ("albumartist" : String) ≠ "album")]
    exact inner
  · rw [if_neg c2]
    exact inner

/-- Witness for `albumartist_duplicate_invariant` on a concrete singleton
batch. -/
theorem albumartist_duplicate_invariant_witness :
    mGet ((ProcessListOfFiles [] "NOW" [[("album", "A")]]).getD 0 []) "album artist" =
      mGet ((ProcessListOfFiles [] "NOW" [[("album", "A")]]).getD 0 []) "albumartist" :=
  albumartist_duplicate_invariant.2 [] "NOW" [[("album", "A")]] _ (by decide)

/-- The source's secondary-write guard (`key not in dict or (key in dict
and AreSimilar(dict[key].name, name))`) agrees with the spec's phrasing
(write when unoccupied, or when the occupant's display name is similar). -/
theorem secondaryWrite_eq (dd : ArtistDict) (k2 name : String) (rec : ArtistLookup) :
    (if (!(mdHas dd k2) || (mdHas dd k2 && AreSimilar (dictName dd k2) name)) = true
     then assocSet dd k2 rec else dd) =
    (match assocFind dd k2 with
     | none => assocSet dd k2 rec
     | some r0 => if AreSimilar r0.name name then assocSet dd k2 rec else dd) := by
  cases hf : assocFind dd k2 with
  | none =>
      have h1 : mdHas dd k2 = false := by simp [mdHas, hf]
      simp [h1]
  | some r0 =>
      have h1 : mdHas dd k2 = true := by simp [mdHas, hf]
      have h2 : dictName dd k2 = r0.name := by simp [dictName, hf]
      simp [h1, h2]

/-- A secondary write (in spec form) never disturbs the record stored
under the primary key, because a coinciding secondary key receives the
identical record. -/
theorem secondaryWrite_preserves (dd : ArtistDict) (k2 name sn swd role ep : String)
    (hdd : assocFind dd (makeKey name) =
      some (ArtistLookup.make (makeKey name) name sn swd role ep)) :
    assocFind (match assocFind dd k2 with
      | none => assocSet dd k2 (ArtistLookup.make k2 name sn swd role ep)
      | some r0 =>
          if AreSimilar r0.name name then
            assocSet dd k2 (ArtistLookup.make k2 name sn swd role ep)
          else dd) (makeKey name) =
      some (ArtistLookup.make (makeKey name) name sn swd role ep) := by
  have write : assocFind (assocSet dd k2 (ArtistLookup.make k2 name sn swd role ep))
      (makeKey name) = some (ArtistLookup.make (makeKey name) name sn swd role ep) := by
    by_cases hk : k2 = makeKey name
    · subst hk
      rw [assocFind_assocSet_self]
    · rw [assocFind_assocSet_ne _ _ (Ne.symm hk)]
      exact hdd
  cases hf : assocFind dd k2 with
  | none => exact write
  | some r0 =>
      show assocFind (if AreSimilar r0.name name = true then
          assocSet dd k2 (ArtistLookup.make k2 name sn swd role ep) else dd)
        (makeKey name) = some (ArtistLookup.make (makeKey name) name sn swd role ep)
      by_cases hsim : AreSimilar r0.name name = true
      · rw [if_pos hsim]
        exact write
      · rw [if_neg hsim]
        exact hdd

/-- C4: `upsertArtist` refines the spec's upsert.  A run that does not
raise (the name has a last-name and an initials form) returns the spec's
result: the record is stored unconditionally under `makeKey(name)` (and is
still found there afterwards); for a non-Orchestra role the record is
additionally stored under the last-name and initials keys exactly when the
key is unoccupied or its occupant's display name is similar to the new
name; for an Orchestra only the full-name key is touched. -/
theorem upsertArtist_matches_spec :
    ∀ (d : ArtistDict) (name sn swd role ep ln ini : String),
      getLastName name = some ln → getInitialsName name = some ini →
      upsertArtist d name sn swd role ep =
        .ok (upsertSpec d name sn swd role ep ln ini) ∧
      assocFind (upsertSpec d name sn swd role ep ln ini) (makeKey name) =
        some (ArtistLookup.make (makeKey name) name sn swd role ep) ∧
      (role = "Orchestra" →
        upsertSpec d name sn swd role ep ln ini =
          assocSet d (makeKey name) (ArtistLookup.make (makeKey name) name sn swd role ep)) := by
  intro d name sn swd role ep ln ini hln hini
  refine ⟨?_, ?_, ?_⟩
  · by_cases hrole : role = "Orchestra"
    · unfold upsertArtist upsertSpec
      rw [if_neg (fun h => h hrole), if_pos hrole]
    · unfold upsertArtist upsertSpec
      rw [if_pos hrole, if_neg hrole]
      simp only [hln, hini, List.foldl]
      rw [secondaryWrite_eq, secondaryWrite_eq]
  · unfold upsertSpec
    by_cases hrole : role = "Orchestra"
    · rw [if_pos hrole, assocFind_assocSet_self]
    · rw [if_neg hrole]
      simp only [List.foldl]
      exact secondaryWrite_preserves _ _ _ _ _ _ _
        (secondaryWrite_preserves _ _ _ _ _ _ _ (assocFind_assocSet_self _ _ _))
  · intro hrole
    unfold upsertSpec
    rw [if_pos hrole]

/-- Witness for `upsertArtist_matches_spec` at a concrete composer
upsert into the empty registry. -/
theorem upsertArtist_matches_spec_witness :
    upsertArtist [] "Johann Sebastian Bach" "Bach, Johann Sebastian" "" "Composer" "" =
      .ok (upsertSpec [] "Johann Sebastian Bach" "Bach, Johann Sebastian" ""
        "Composer" "" "Bach," "jsbach") :=
  (upsertArtist_matches_spec [] "Johann Sebastian Bach" "Bach, Johann Sebastian" ""
    "Composer" "" "Bach," "jsbach" (by decide) (by decide)).1

/-- C2 counterexample: in `cexGroup` every album is `"[Boehm]"` before
reconciliation; afterwards the albums are `["", "[Boehm]", "[Boehm]"]` —
not all equal — yet the guard's check sees the leading empty value as
"unset", classifies the batch as still uniform, performs no rollback, and
the records leave the guard with non-identical albums none of which is
restored on the first record. -/
theorem guard_rollback_cex :
    (∀ t ∈ cexGroup, mGet t "album" = "[Boehm]") ∧
    (ProcessListOfFiles [] "NOW" cexGroup).map (fun t => mGet t "album") =
      ["", "[Boehm]", "[Boehm]"] ∧
    ¬(∀ t ∈ ProcessListOfFiles [] "NOW" cexGroup, mGet t "album" = "[Boehm]") := by
  refine ⟨by decide, by decide, by decide⟩

/-- C2 as amended: with "identical" read as the guard's own uniformity
check (which ignores empty values occurring before the first non-empty
one), the claim holds — if the check passes on the albums before
reconciliation and fails after, every record leaving the guard carries the
captured pre-reconciliation album; independently for `albumartist`, whose
rollback writes both `albumartist` and `album artist`; and when the album
pre-check already failed, no album rollback occurs. -/
theorem guard_rollback :
    ∀ (lookup : ArtistDict) (now : String) (objs : List Metadata),
      ((preScanAlbum objs).2 = true →
        (preScanAlbum (runFixes lookup now objs)).2 = false →
        ∀ t ∈ ProcessListOfFiles lookup now objs,
          mGet t "album" = (preScanAlbum objs).1) ∧
      ((preScanAA objs).2 = true →
        (preScanAA (runFixes lookup now objs)).2 = false →
        ∀ t ∈ ProcessListOfFiles lookup now objs,
          mGet t "albumartist" = (preScanAA objs).1 ∧
          mGet t "album artist" = (preScanAA objs).1) ∧
      ((preScanAlbum objs).2 = false →
        ∀ i : Nat,
          mGet ((ProcessListOfFiles lookup now objs).getD i []) "album" =
            mGet ((runFixes lookup now objs).getD i []) "album") := by
  intro lookup now objs
  refine ⟨?_, ?_, ?_⟩
  · intro h1 h2 t ht
    simp only [ProcessListOfFiles] at ht
    rcases List.mem_map.mp ht with ⟨t0, _, rfl⟩
    have hc2 : ((preScanAlbum objs).2 &&
        !(preScanAlbum (runFixes lookup now objs)).2) = true := by
      rw [h1, h2]
      rfl
    rw [if_pos hc2, mGet_mSet_self]
  · intro h1 h2 t ht
    simp only [ProcessListOfFiles] at ht
    rcases List.mem_map.mp ht with ⟨t0, _, rfl⟩
    have hc1 : ((preScanAA objs).2 &&
        !(preScanAA (runFixes lookup now objs)).2) = true := by
      rw [h1, h2]
      rfl
    by_cases hc2 : ((preScanAlbum objs).2 &&
        !(preScanAlbum (runFixes lookup now objs)).2) = true
    · rw [if_pos hc2]
      constructor
      · rw [mGet_mSet_ne _ _ (by decide : ("albumartist" : String) ≠ "album"),
          if_pos hc1,
          mGet_mSet_ne _ _ (by decide : ("albumartist" : String) ≠ "album artist"),
          mGet_mSet_self]
      · rw [mGet_mSet_ne _ _ (by decide : ("album artist" : String) ≠ "album"),
          if_pos hc1, mGet_mSet_self]
    · rw [if_neg hc2, if_pos hc1]
      constructor
      · rw [mGet_mSet_ne _ _ (by decide : ("albumartist" : String) ≠ "album artist"),
          mGet_mSet_self]
      · rw [mGet_mSet_self]
  · intro h1 i
    have hc2 : ((preScanAlbum objs).2 &&
        !(preScanAlbum (runFixes lookup now objs)).2) = false := by
      rw [h1]
      rfl
    simp only [ProcessListOfFiles]
    by_cases hlen : i < (runFixes lookup now objs).length
    · rw [List.getD_eq_getElem _ _ (by simpa using hlen),
        List.getD_eq_getElem _ _ hlen, List.getElem_map]
      rw [if_neg (by rw [hc2]; exact fun hh => Bool.false_ne_true hh)]
      by_cases hc1 : ((preScanAA objs).2 &&
          !(preScanAA (runFixes lookup now objs)).2) = true
      · rw [if_pos hc1,
          mGet_mSet_ne _ _ (by decide : ("album" : String) ≠ "album artist"),
          mGet_mSet_ne _ _ (by decide : ("album" : String) ≠ "albumartist")]
      · rw [if_neg hc1]
    · have hlen2 : ¬ i < (List.map (fun t =>
          if ((preScanAlbum objs).2 && !(preScanAlbum (runFixes lookup now objs)).2) =
              true then
            mSet (if ((preScanAA objs).2 &&
                !(preScanAA (runFixes lookup now objs)).2) = true then
              mSet (mSet t "albumartist" (preScanAA objs).1) "album artist"
                (preScanAA objs).1
            else t) "album" (preScanAlbum objs).1
          else
            if ((preScanAA objs).2 && !(preScanAA (runFixes lookup now objs)).2) =
                true then
              mSet (mSet t "albumartist" (preScanAA objs).1) "album artist"
                (preScanAA objs).1
            else t) (runFixes lookup now objs)).length := by
        simpa using hlen
      rw [List.getD_eq_default _ _ (by omega : (runFixes lookup now objs).length ≤ i),
        List.getD_eq_default _ _ (by simpa using (by omega :
          (runFixes lookup now objs).length ≤ i))]

/-- Witness for `guard_rollback` on the concrete two-record group
`wQGroup`: reconciliation strips `[Q]` from the first record's album only,
the post-check fails, and the guard restores the shared album. -/
theorem guard_rollback_witness :
    mGet ((ProcessListOfFiles [] "NOW" wQGroup).getD 0 []) "album" = "[Q] A" :=
  (((guard_rollback [] "NOW" wQGroup).1 (by decide) (by decide)
    ((ProcessListOfFiles [] "NOW" wQGroup).getD 0 []) (by decide)).trans (by decide))

/-- C1 counterexample: both clusters pass validation (`Album Disc 1` and
`Album Disc 3` share the prefix `Album`), disc ordinal 2 is resolved by
neither a title number nor a file disc number and is silently skipped, no
exception occurs — and yet the first cluster's member record has been
rewritten to the merged album `Album` and the second cluster's group
metadata has had its album artist overwritten, while the second cluster's
member record still carries `Album Disc 3`: the merge is not
all-or-nothing. -/
theorem combineDiscs_partial_mutation_cex :
    cexRun.vfail = false ∧ cexRun.err = false ∧ cexRun.skipped = [2] ∧
    mGet (((cexRun.state.getD 0 ⟨[], []⟩).files.getD 0 ⟨[]⟩).metadata) "album" =
      "Album" ∧
    mGet ((cexClusterA.files.getD 0 ⟨[]⟩).metadata) "album" = "Album Disc 1" ∧
    mGet (((cexRun.state.getD 1 ⟨[], []⟩).files.getD 0 ⟨[]⟩).metadata) "album" =
      "Album Disc 3" ∧
    mGet ((cexRun.state.getD 1 ⟨[], []⟩).metadata) "albumartist" = "AA" ∧
    mGet cexClusterB.metadata "albumartist" = "BB" := by
  refine ⟨by decide, by decide, by decide, by decide, by decide, by decide, by decide,
    by decide⟩

/-- The merge phase never reports a validation failure. -/
theorem combineMergeOutcome_vfail (albumName : String) (objs : List PCluster) :
    (combineMergeOutcome albumName objs).vfail = false := by
  unfold combineMergeOutcome
  cases mergeLoop albumName objs.length ((List.range objs.length).map (· + 1))
      objs "" "" [] with
  | error es => rfl
  | ok os => rfl

/-- C1 as amended: only the validation phase is all-or-nothing — a
validation failure (pattern mismatch, prefix disagreement, or a selected
item that is not a non-empty cluster) returns with every record and every
group untouched, nothing skipped and no exception.  (After validation
succeeds this atomicity is lost: see `combineDiscs_partial_mutation_cex`,
where an unresolved ordinal is silently skipped with earlier discs already
rewritten.) -/
theorem combineDiscs_validation_atomic :
    ∀ objs : List PCluster, (combineDiscsRun objs).vfail = true →
      (combineDiscsRun objs).state = objs ∧ (combineDiscsRun objs).skipped = [] ∧
      (combineDiscsRun objs).err = false := by
  intro objs h
  unfold combineDiscsRun at *
  cases hv : validateClusters objs "" with
  | none => simp [hv]
  | some an =>
      rw [hv] at h
      rw [show (match some an with
          | none => (⟨objs, [], false, true⟩ : CDResult)
          | some albumName => combineMergeOutcome albumName objs) =
        combineMergeOutcome an objs from rfl, combineMergeOutcome_vfail] at h
      exact absurd h (by decide)

/-- Witness for `combineDiscs_validation_atomic`: a selection whose album
has no Disc/Disk token fails validation and is returned untouched. -/
theorem combineDiscs_validation_atomic_witness :
    (combineDiscsRun [vfailCluster]).state = [vfailCluster] :=
  (combineDiscs_validation_atomic [vfailCluster] (by decide)).1

end ClassicalFixes
